import Mathlib

/-!
Verification development for the Eddie backend (wiki-ingestion course
generator).  The Python services under `backend/app` are shallowly embedded:
text is `List Char`, machine integers are `Nat`/`Int`, fallible code returns
`Except`/`Option`, and the persistent JSON files and the per-course vector
collections are explicit association lists threaded through the functions.
External capabilities (the Confluence HTTP client, the Gemini embedding and
generation endpoints, the md5 digest) are parameters of the embedding; the
repository code that consumes them is translated line by line.
-/

namespace Eddie

/-! ## Chunker: `VectorStoreService.chunk_text` (vector_store.py)

Python `str.strip()` whitespace is modelled by the six ASCII whitespace
characters; `str.rfind(sub, start, end)` is modelled by `pyRfind`.
-/

/-- The ASCII whitespace characters stripped by Python `str.strip()`. -/
def isPySpace (c : Char) : Bool :=
  c == ' ' || c == '\t' || c == '\n' || c == '\x0d' || c == '\x0b' || c == '\x0c'

/-- Python `s.strip()`: drop leading and trailing whitespace. -/
def pyStrip (l : List Char) : List Char :=
  ((l.dropWhile isPySpace).reverse.dropWhile isPySpace).reverse

/-- Python `text.rfind(sub, s, e)`: the largest index `i` with `s ≤ i`,
`i + |sub| ≤ min e |text|` and `sub` occurring at `i`, else `-1`. -/
def pyRfind (t : List Char) (sub : List Char) (s e : Nat) : Int :=
  let e' := min e t.length
  match ((List.range (e' + 1)).filter
      (fun i => decide (s ≤ i) && decide (i + sub.length ≤ e') &&
        decide ((t.drop i).take sub.length = sub))).getLast? with
  | some i => Int.ofNat i
  | none => -1

/-- The boundary-snapping computation of one loop iteration of `chunk_text`:
`end = start + chunk_size`, snapped back to the sentence terminator nearest
the window end, else to the last space, else left at the raw boundary; when
the window runs past the text, `end = len(text)`. -/
def chunk_end (t : List Char) (chunk_size start : Nat) : Nat :=
  let end0 := start + chunk_size
  if end0 < t.length then
    let sentence_end :=
      max (max (pyRfind t ['.', ' '] start end0) (pyRfind t ['!', ' '] start end0))
        (pyRfind t ['?', ' '] start end0)
    if (start : Int) < sentence_end then sentence_end.toNat + 1
    else
      let space := pyRfind t [' '] start end0
      if (start : Int) < space then space.toNat else end0
  else t.length

/-- The advance of one loop iteration: `new_start = end - overlap`, clamped
so that the window always moves forward by at least `chunk_size // 4`. -/
def next_start (chunk_size overlap end1 start : Nat) : Nat :=
  if (end1 : Int) - (overlap : Int) ≤ ((start + chunk_size / 4 : Nat) : Int) then
    start + chunk_size / 4
  else end1 - overlap

/-- The `while start < len(text)` loop of `chunk_text`, with the explicit
iteration cap (`if iteration > 100: break`) rendered as fuel: the body runs
at most `fuel` times, and the initial call passes `100`. -/
def chunk_loop (t : List Char) (chunk_size overlap : Nat) :
    Nat → Nat → List (List Char) → List (List Char)
  | 0, _, chunks => chunks
  | fuel + 1, start, chunks =>
    if start < t.length then
      let end1 := chunk_end t chunk_size start
      let chunk := pyStrip ((t.drop start).take (end1 - start))
      let chunks' := if chunk.isEmpty then chunks else chunks ++ [chunk]
      if t.length ≤ end1 then chunks'
      else chunk_loop t chunk_size overlap fuel (next_start chunk_size overlap end1 start) chunks'
    else chunks

/-- `VectorStoreService.chunk_text(text, chunk_size=500, overlap=50)`:
empty text gives no chunks, text within `chunk_size` is returned whole
(without stripping), otherwise the windowed loop runs with cap 100. -/
def chunk_text (t : List Char) (chunk_size : Nat := 500) (overlap : Nat := 50) :
    List (List Char) :=
  if t.isEmpty then []
  else if t.length ≤ chunk_size then [t]
  else chunk_loop t chunk_size overlap 100 0 []

/-- The bound promised by the spec for the chunk count: a function of the
text length and the minimum-advance floor `chunk_size // 4` (when the floor
is zero only the iteration cap bounds the loop). -/
def chunk_bound (L m : Nat) : Nat :=
  if m = 0 then 100 else min 100 ((L - 1) / m + 1)

theorem chunk_loop_of_not_lt (t : List Char) (cs ov fuel start : Nat)
    (chunks : List (List Char)) (h : ¬ start < t.length) :
    chunk_loop t cs ov fuel start chunks = chunks := by
  cases fuel with
  | zero => rfl
  | succ n => simp only [chunk_loop, if_neg h]

theorem chunk_loop_length_le (t : List Char) (cs ov : Nat) :
    ∀ fuel start chunks, (chunk_loop t cs ov fuel start chunks).length ≤ chunks.length + fuel := by
  intro fuel
  induction fuel with
  | zero => intro start chunks; simp [chunk_loop]
  | succ n ih =>
    intro start chunks
    simp only [chunk_loop]
    split
    · have hc : (if (pyStrip ((t.drop start).take (chunk_end t cs start - start))).isEmpty
          then chunks
          else chunks ++ [pyStrip ((t.drop start).take (chunk_end t cs start - start))]).length
          ≤ chunks.length + 1 := by
        split
        · omega
        · simp
      split
      · omega
      · exact le_trans (ih _ _) (by omega)
    · omega

theorem le_next_start (cs ov end1 start : Nat) :
    start + cs / 4 ≤ next_start cs ov end1 start := by
  unfold next_start
  split
  · exact le_refl _
  · omega

theorem chunk_loop_length_le_div (t : List Char) (cs ov : Nat) (hm : 0 < cs / 4) :
    ∀ fuel start chunks, start < t.length →
      (chunk_loop t cs ov fuel start chunks).length
        ≤ chunks.length + ((t.length - start - 1) / (cs / 4) + 1) := by
  intro fuel
  induction fuel with
  | zero => intro start chunks _; simp [chunk_loop]
  | succ n ih =>
    intro start chunks hstart
    simp only [chunk_loop, if_pos hstart]
    have hc : (if (pyStrip ((t.drop start).take (chunk_end t cs start - start))).isEmpty
        then chunks
        else chunks ++ [pyStrip ((t.drop start).take (chunk_end t cs start - start))]).length
        ≤ chunks.length + 1 := by
      split
      · omega
      · simp
    split
    · exact le_trans hc (Nat.add_le_add_left (Nat.le_add_left 1 _) _)
    · rename_i hend
      set m := cs / 4 with hm4
      set ns := next_start cs ov (chunk_end t cs start) start with hns
      have hadv : start + m ≤ ns := le_next_start cs ov _ start
      by_cases hlt : ns < t.length
      · have hmono : (t.length - ns - 1) / m + 1 + 1 ≤ (t.length - start - 1) / m + 1 := by
          have h1 : m ≤ t.length - start - 1 := by omega
          have h2 : t.length - ns - 1 ≤ t.length - start - 1 - m := by omega
          have h3 : (t.length - ns - 1) / m ≤ (t.length - start - 1 - m) / m :=
            Nat.div_le_div_right h2
          have h4 : (t.length - start - 1 - m) / m + 1 = (t.length - start - 1) / m := by
            have h5 := Nat.sub_add_cancel h1
            calc (t.length - start - 1 - m) / m + 1
                = (t.length - start - 1 - m + m) / m := (Nat.add_div_right _ hm).symm
              _ = (t.length - start - 1) / m := by rw [h5]
          generalize (t.length - ns - 1) / m = A at h3
          generalize (t.length - start - 1 - m) / m = B at h3 h4
          generalize (t.length - start - 1) / m = C at h4 ⊢
          omega
        refine le_trans (ih ns _ hlt) (le_trans (Nat.add_le_add_right hc _) ?_)
        generalize hA : (t.length - ns - 1) / m = A at hmono
        generalize hB : (t.length - start - 1) / m = B at hmono ⊢
        omega
      · rw [chunk_loop_of_not_lt t cs ov n ns _ hlt]
        exact le_trans hc (Nat.add_le_add_left (Nat.le_add_left 1 _) _)

/-- Every chunk appended by the loop is the `strip` of a window and was
checked non-empty (`if chunk:`). -/
theorem chunk_loop_mem (t : List Char) (cs ov : Nat)
    (P : List Char → Prop)
    (hP : ∀ start end1, P (pyStrip ((t.drop start).take (end1 - start)))
      ∨ (pyStrip ((t.drop start).take (end1 - start))).isEmpty = true) :
    ∀ fuel start chunks, (∀ c ∈ chunks, P c) →
      ∀ c ∈ chunk_loop t cs ov fuel start chunks, P c := by
  intro fuel
  induction fuel with
  | zero => intro start chunks hch; simpa [chunk_loop] using hch
  | succ n ih =>
    intro start chunks hch
    simp only [chunk_loop]
    split
    · have hch' : ∀ c ∈ (if (pyStrip ((t.drop start).take (chunk_end t cs start - start))).isEmpty
          then chunks
          else chunks ++ [pyStrip ((t.drop start).take (chunk_end t cs start - start))]), P c := by
        split
        · exact hch
        · rename_i hne
          intro c hc
          rcases List.mem_append.mp hc with h | h
          · exact hch c h
          · rcases List.mem_singleton.mp h with rfl
            rcases hP start (chunk_end t cs start) with h | h
            · exact h
            · exact absurd h (by simpa using hne)
      split
      · exact hch'
      · exact ih _ _ hch'
    · exact hch

theorem dropWhile_head_not (p : Char → Bool) :
    ∀ (l : List Char) a, (l.dropWhile p).head? = some a → p a = false := by
  intro l
  induction l with
  | nil => intro a h; simp at h
  | cons x xs ih =>
    intro a h
    by_cases hx : p x
    · rw [List.dropWhile_cons_of_pos hx] at h
      exact ih a h
    · rw [List.dropWhile_cons_of_neg hx] at h
      simp at h
      subst h
      simpa using hx

theorem dropWhile_eq_self_of_head (p : Char → Bool) (l : List Char)
    (h : ∀ a, l.head? = some a → p a = false) : l.dropWhile p = l := by
  cases l with
  | nil => rfl
  | cons x xs =>
    have hx : p x = false := h x rfl
    simp [List.dropWhile_cons, hx]

theorem dropWhile_suffix (p : Char → Bool) (l : List Char) : l.dropWhile p <:+ l := by
  induction l with
  | nil => simp
  | cons x xs ih =>
    by_cases hx : p x
    · rw [List.dropWhile_cons_of_pos hx]
      exact ih.trans (List.suffix_cons x xs)
    · rw [List.dropWhile_cons_of_neg hx]

theorem head_eq_of_pfx {l pre : List Char} (h : pre <+: l) (hne : pre ≠ []) :
    pre.head? = l.head? := by
  rcases h with ⟨tl, rfl⟩
  cases pre with
  | nil => exact absurd rfl hne
  | cons a u => rfl

/-- Stripping is idempotent: `pyStrip` output carries no residual
leading or trailing whitespace. -/
theorem pyStrip_idempotent (l : List Char) : pyStrip (pyStrip l) = pyStrip l := by
  unfold pyStrip
  set x := l.dropWhile isPySpace with hx
  set y := x.reverse.dropWhile isPySpace with hy
  have hyx : y.reverse <+: x := by
    have hs : y <:+ x.reverse := dropWhile_suffix isPySpace x.reverse
    have := List.reverse_prefix.mpr hs
    simpa using this
  have hstep1 : y.reverse.dropWhile isPySpace = y.reverse := by
    apply dropWhile_eq_self_of_head
    intro a ha
    by_cases hne : y.reverse = []
    · rw [hne] at ha; simp at ha
    · rw [head_eq_of_pfx hyx hne] at ha
      exact dropWhile_head_not isPySpace l a (hx ▸ ha)
  have hstep2 : y.dropWhile isPySpace = y := by
    apply dropWhile_eq_self_of_head
    intro a ha
    exact dropWhile_head_not isPySpace x.reverse a (hy ▸ ha)
  rw [hstep1, List.reverse_reverse, hstep2]

/-- C3: for every text, target size ≥ 1 and overlap, `chunk_text` returns a
finite sequence whose length is bounded by a function of the text length and
the minimum-advance floor `chunk_size // 4`: each iteration advances the
window start by at least that floor, and the iteration cap covers the
degenerate floor-zero case. -/
theorem claim_C3_chunk_text_bounded (t : List Char) (cs ov : Nat) (hcs : 1 ≤ cs) :
    (chunk_text t cs ov).length ≤ chunk_bound t.length (cs / 4) := by
  have hbound1 : 1 ≤ chunk_bound t.length (cs / 4) := by
    unfold chunk_bound
    split
    · omega
    · exact le_min (by omega) (Nat.le_add_left 1 _)
  unfold chunk_text
  split
  · exact Nat.zero_le _
  · split
    · simpa using hbound1
    · rename_i hempty hlen
      unfold chunk_bound
      split
      · simpa using chunk_loop_length_le t cs ov 100 0 []
      · rename_i hm
        refine le_min (by simpa using chunk_loop_length_le t cs ov 100 0 []) ?_
        have hL : 0 < t.length := by omega
        have := chunk_loop_length_le_div t cs ov (Nat.pos_of_ne_zero hm) 100 0 [] hL
        simpa using this

/-- Witness for C3 at a concrete input. -/
theorem claim_C3_chunk_text_bounded_witness :
    1 ≤ 500 ∧ (chunk_text "hello world".data 500 50).length
      ≤ chunk_bound ("hello world".data).length (500 / 4) :=
  ⟨by decide, claim_C3_chunk_text_bounded ("hello world".data) 500 50 (by decide)⟩

/-- C4 fails as stated: a text that fits in one window is returned verbatim,
without stripping, so a short text with surrounding whitespace yields a
chunk that is not trimmed. -/
theorem claim_C4_counterexample :
    ¬ (∀ c ∈ chunk_text "  hi  ".data 500 50, c ≠ [] ∧ pyStrip c = c) := by
  decide

/-- C4 amended: when the text is longer than the target size (the loop
path), every returned chunk is non-empty and trimmed; the single-chunk path
returns the text verbatim (non-empty but possibly untrimmed). -/
theorem claim_C4_loop_chunks_trimmed (t : List Char) (cs ov : Nat) (h : cs < t.length) :
    ∀ c ∈ chunk_text t cs ov, c ≠ [] ∧ pyStrip c = c := by
  intro c hc
  have hne : t.isEmpty = false := by
    cases t with
    | nil => simp at h
    | cons a l => rfl
  unfold chunk_text at hc
  rw [hne] at hc
  rw [if_neg (by simp)] at hc
  rw [if_neg (by omega)] at hc
  refine chunk_loop_mem t cs ov (fun c => c ≠ [] ∧ pyStrip c = c) ?_ 100 0 [] (by simp) c hc
  intro start end1
  by_cases he : (pyStrip ((t.drop start).take (end1 - start))).isEmpty = true
  · exact Or.inr he
  · refine Or.inl ⟨?_, pyStrip_idempotent _⟩
    intro hnil
    rw [hnil] at he
    exact he rfl

/-- Witness for the amended C4 at a concrete input. -/
theorem claim_C4_loop_chunks_trimmed_witness :
    3 < ("ab cd".data).length ∧ "ab".data ∈ chunk_text "ab cd".data 3 0
      ∧ ("ab".data ≠ [] ∧ pyStrip "ab".data = "ab".data) :=
  ⟨by decide, by decide,
    claim_C4_loop_chunks_trimmed ("ab cd".data) 3 0 (by decide) ("ab".data) (by decide)⟩

set_option maxRecDepth 100000 in
set_option maxHeartbeats 1000000 in
/-- C10: the explicit iteration cap bounds every `chunk_text` result by 100
chunks, and when the cap is hit the unconsumed tail of the text is dropped:
on a 110-character text with target size 1 and overlap 0 the loop stops
after 100 chunks whose total length is less than the text length. -/
theorem claim_C10_iteration_cap :
    (∀ (t : List Char) (cs ov : Nat), (chunk_text t cs ov).length ≤ 100)
    ∧ (chunk_text (List.replicate 110 'a') 1 0).length = 100
    ∧ ((chunk_text (List.replicate 110 'a') 1 0).map List.length).sum
        < (List.replicate 110 'a').length := by
  refine ⟨?_, by decide, by decide⟩
  intro t cs ov
  unfold chunk_text
  split
  · exact Nat.zero_le _
  · split
    · simp
    · simpa using chunk_loop_length_le t cs ov 100 0 []

/-! ## `strip_html` (vector_store.py)

`re.sub(r'<[^>]+>', ' ', ...)` removes maximal tag spans, the five entity
replacements follow in source order, `re.sub(r'\s+', ' ', ...)` collapses
whitespace runs, and the result is stripped. -/

/-- One pass of the tag regex: a literal `<`, at least one non-`>`
character, then `>`, replaced by a single space; anything else is kept. -/
def stripTags : List Char → List Char
  | [] => []
  | c :: rest =>
    if c = '<' then
      match h : rest.dropWhile (fun x => !(x == '>')) with
      | '>' :: after =>
        if (rest.takeWhile (fun x => !(x == '>'))).isEmpty then c :: stripTags rest
        else ' ' :: stripTags after
      | _ => c :: stripTags rest
    else c :: stripTags rest
termination_by l => l.length
decreasing_by
  · simp
  · simp only [List.length_cons]
    have h1 : (rest.dropWhile (fun x => !(x == '>'))).length ≤ rest.length :=
      (dropWhile_suffix _ rest).length_le
    rw [h] at h1
    simp at h1
    omega
  · simp
  · simp

/-- Python `s.replace(sub, rep)`: non-overlapping left-to-right. -/
def replaceSub (sub rep : List Char) : List Char → List Char
  | [] => []
  | c :: rest =>
    if h : ¬ sub.isEmpty ∧ (c :: rest).take sub.length = sub then
      rep ++ replaceSub sub rep ((c :: rest).drop sub.length)
    else c :: replaceSub sub rep rest
termination_by l => l.length
decreasing_by
  · have hlen : sub.length ≤ rest.length + 1 := by
      have h2 := congrArg List.length h.2
      simp [List.length_take] at h2
      omega
    have hpos : 0 < sub.length := by
      cases sub with
      | nil => simp at h
      | cons a u => simp
    simp only [List.length_drop, List.length_cons]
    omega
  · simp

/-- `re.sub(r'\s+', ' ', ...)`: each maximal whitespace run becomes one space. -/
def collapseWs : List Char → List Char
  | [] => []
  | c :: rest =>
    if isPySpace c then ' ' :: collapseWs (rest.dropWhile isPySpace)
    else c :: collapseWs rest
termination_by l => l.length
decreasing_by
  · have h1 : (rest.dropWhile isPySpace).length ≤ rest.length :=
      (dropWhile_suffix _ rest).length_le
    simp only [List.length_cons]
    omega
  · simp

/-- `strip_html(html_content)`: tag removal, entity decoding, whitespace
collapse, final strip. -/
def strip_html (html_content : List Char) : List Char :=
  if html_content.isEmpty then []
  else
    let t1 := stripTags html_content
    let t2 := replaceSub "&nbsp;".data " ".data t1
    let t3 := replaceSub "&lt;".data "<".data t2
    let t4 := replaceSub "&gt;".data ">".data t3
    let t5 := replaceSub "&amp;".data "&".data t4
    let t6 := replaceSub "&quot;".data "\"".data t5
    pyStrip (collapseWs t6)

/-! ## Vector store state (`VectorStoreService`, vector_store.py)

The ChromaDB client is modelled as a map from collection name to an
optional list of stored chunks; the md5 digest and the Gemini embedding
endpoint are opaque parameters (`hash`, `embed`) of the operations that
use them — only their determinism matters to the claims. -/

/-- One stored chunk: its deterministic ID, document text, embedding
vector, and the metadata fields written by `add_page_content`. -/
structure ChunkEntry where
  id : String
  doc : List Char
  emb : List Int
  page_id : String
  page_title : String
  chunk_index : Nat
  total_chunks : Nat
  page_url : String
deriving DecidableEq, Repr

/-- The ChromaDB persistent client: collection name to stored entries. -/
def VStore := String → Option (List ChunkEntry)

/-- Pointwise update of a finite map modelled as a function. -/
def fupd {α β : Type} [DecidableEq α] (f : α → β) (k : α) (v : β) : α → β :=
  fun m => if m = k then v else f m

def collection_name (course_id : String) : String := "course_" ++ course_id

/-- `get_or_create_collection`: create the (empty) collection if absent. -/
def get_or_create_collection (vs : VStore) (name : String) : VStore :=
  match vs name with
  | some _ => vs
  | none => fupd vs name (some [])

/-- The entries of a collection (empty if the collection is absent). -/
def colEntries (vs : VStore) (name : String) : List ChunkEntry :=
  (vs name).getD []

/-- Modelled from the spec: ChromaDB `collection.add` under the §4.2
deterministic-ID contract — an ID already present in the collection is left
untouched (re-insertion of an identical ID is a no-op), a fresh ID is
appended.  `chromadb` is an external dependency, not code under `src/`. -/
def chroma_add (col : List ChunkEntry) (new : List ChunkEntry) : List ChunkEntry :=
  new.foldl (fun acc e => if acc.any (fun x => x.id == e.id) then acc else acc ++ [e]) col

/-- The deterministic chunk ID
`f"{page_id}_chunk_{i}_{self._hash_text(chunk)[:8]}"`; `hash` stands for
the md5 hexdigest. -/
def chunk_id (hash : List Char → List Char) (page_id : String) (i : Nat)
    (chunk : List Char) : String :=
  page_id ++ "_chunk_" ++ toString i ++ "_" ++ String.mk ((hash chunk).take 8)

/-- The chunks `add_page_content` derives from a page body:
`chunk_text(strip_html(page_content))` with the default sizes. -/
def page_chunks (page_content : List Char) : List (List Char) :=
  chunk_text (strip_html page_content) 500 50

/-- The entry batch `add_page_content` builds: one entry per chunk, with
the deterministic ID and the metadata dict of the source. -/
def page_entries (hash : List Char → List Char) (embed : List Char → List Int)
    (page_id page_title page_url : String) (chunks : List (List Char)) : List ChunkEntry :=
  chunks.enum.map (fun ic =>
    { id := chunk_id hash page_id ic.1 ic.2, doc := ic.2, emb := embed ic.2,
      page_id := page_id, page_title := page_title, chunk_index := ic.1,
      total_chunks := chunks.length, page_url := page_url : ChunkEntry })

/-- `add_page_content`: strip HTML, chunk, embed, and add the chunks under
their deterministic IDs with their metadata.  An empty chunk list returns
without touching the collection contents. -/
def add_page_content (hash : List Char → List Char) (embed : List Char → List Int)
    (vs : VStore) (course_id page_id page_title : String) (page_content : List Char)
    (page_url : String) : VStore :=
  let cn := collection_name course_id
  let vs' := get_or_create_collection vs cn
  let chunks := page_chunks page_content
  if chunks.isEmpty then vs'
  else
    fupd vs' cn (some (chroma_add (colEntries vs' cn)
      (page_entries hash embed page_id page_title page_url chunks)))

/-- `delete_page_content`: remove every chunk whose metadata `page_id`
matches; idempotent. -/
def delete_page_content (vs : VStore) (course_id page_id : String) : VStore :=
  let cn := collection_name course_id
  let vs' := get_or_create_collection vs cn
  fupd vs' cn (some ((colEntries vs' cn).filter (fun e => !(e.page_id == page_id))))

/-- `delete_course_collection`: drop the whole collection; the
`try/except` makes it a no-op when the collection is absent. -/
def delete_course_collection (vs : VStore) (course_id : String) : VStore :=
  fupd vs (collection_name course_id) none

/-- `get_all_page_ids`: the distinct `page_id` metadata values of the
course collection (Python builds a `set`; the iteration order of
`list(set)` is unspecified, so the model dedups keeping first
occurrences).  `get_or_create_collection` may create the collection. -/
def get_all_page_ids (vs : VStore) (course_id : String) : VStore × List String :=
  let vs' := get_or_create_collection vs (collection_name course_id)
  (vs', ((colEntries vs' (collection_name course_id)).map (·.page_id)).dedup)

/-! ## Confluence client and configs (confluence_service.py, onboarding_config.py)

The HTTP client is an external collaborator.  `is_page_a_folder` and
`get_child_pages` catch their own request errors, but the callers still
wrap them in `try/except`; a `none` result models a call that raised past
the service method.  `get_page_by_id` returns `None` on failure, modelled
with `Option`; the page URL is modelled as delivered by the client
(`base_url` string surgery elided with the HTTP layer). -/

/-- A successfully fetched page: `title`, `body.storage.value`,
the assembled web URL and `version.number`. -/
structure PageData where
  title : String
  body : List Char
  url : String
  version : Int
deriving DecidableEq, Repr

structure ConfluenceEnv where
  is_page_a_folder : String → Option Bool
  get_child_pages : String → Option (List String)
  get_page_by_id : String → Option PageData

structure OnboardingSettings where
  folder_recursion : Bool
  test_at_end : Bool
deriving DecidableEq, Repr

structure OnboardingConfig where
  id : String
  name : String
  instructions : String
  linked_pages : List String
  settings : OnboardingSettings
deriving DecidableEq, Repr

/-- `set.add`: insert if absent (Python set modelled with first-insertion
order, which is all the membership-level claims depend on). -/
def setInsert (l : List String) (x : String) : List String :=
  if x ∈ l then l else l ++ [x]

/-- `set.update`: insert each element. -/
def setUnion (l : List String) (xs : List String) : List String :=
  xs.foldl setInsert l

/-- Page-set resolution of `process_course` (course_processor.py lines
38-53): with folder recursion each linked page is replaced by its
recursively collected children when it is a folder; a page whose check or
child fetch raises is kept itself (`except: expanded_ids.add(page_id)`). -/
def resolve_pages_process (E : ConfluenceEnv) (linked_pages : List String)
    (folder_recursion : Bool) : List String :=
  if folder_recursion then
    linked_pages.foldl (fun acc page_id =>
      match E.is_page_a_folder page_id with
      | some true =>
        match E.get_child_pages page_id with
        | some child_ids => setUnion acc child_ids
        | none => setInsert acc page_id
      | some false => setInsert acc page_id
      | none => setInsert acc page_id) []
  else linked_pages

/-- Page-set resolution of `check_for_updates` (lines 203-215): same
expansion, except a page whose check raises is dropped (the `except`
branch only logs). -/
def resolve_pages_check (E : ConfluenceEnv) (linked_pages : List String)
    (folder_recursion : Bool) : List String :=
  if folder_recursion then
    linked_pages.foldl (fun acc page_id =>
      match E.is_page_a_folder page_id with
      | some true =>
        match E.get_child_pages page_id with
        | some child_ids => setUnion acc child_ids
        | none => acc
      | some false => setInsert acc page_id
      | none => acc) []
  else linked_pages

/-! ## Persisted JSON values

The processing snapshot is written with `json.dump` and read back with
`json.load`, so the reader sees untyped JSON; `PyVal` models the values a
JSON file can hold, and the subscript/iterate helpers model how Python
reacts to each shape. -/

inductive PyVal where
  | int : Int → PyVal
  | str : String → PyVal
  | bool : Bool → PyVal
  | list : List PyVal → PyVal
  | dict : List (String × PyVal) → PyVal

/-- Python `d.get(k, default)` on a loaded JSON value; calling `.get` on a
non-dict raises `AttributeError`. -/
def pyGet (v : PyVal) (k : String) (dflt : PyVal) : Except String PyVal :=
  match v with
  | .dict fs => .ok ((fs.lookup k).getD dflt)
  | _ => .error "AttributeError: value has no attribute get"

/-- Python `v[k]` for a string key: `KeyError` when absent, `TypeError`
when the value is not a dict. -/
def pySubscript (v : PyVal) (k : String) : Except String PyVal :=
  match v with
  | .dict fs =>
    match fs.lookup k with
    | some x => .ok x
    | none => .error ("KeyError: " ++ k)
  | _ => .error "TypeError: value is not subscriptable"

/-- Python iteration over a value: lists yield elements, strings yield
one-character strings, dicts yield their keys, ints and bools raise. -/
def pyIter (v : PyVal) : Except String (List PyVal) :=
  match v with
  | .list xs => .ok xs
  | .str s => .ok (s.data.map (fun c => .str (String.mk [c])))
  | .dict fs => .ok (fs.map (fun kv => .str kv.1))
  | .int _ => .error "TypeError: int object is not iterable"
  | .bool _ => .error "TypeError: bool object is not iterable"

/-- Python `==` between a JSON scalar and a str (`True == 'x'` is `False`,
never an error). -/
def pyStrEq (v : PyVal) (s : String) : Bool :=
  match v with
  | .str t => t == s
  | _ => false

/-- Python scalar equality as used by set membership (`True == 1`). -/
def pyScalarBeq (a b : PyVal) : Bool :=
  match a, b with
  | .int x, .int y => x == y
  | .str x, .str y => x == y
  | .bool x, .bool y => x == y
  | .int x, .bool y => x == (if y then (1 : Int) else 0)
  | .bool x, .int y => (if x then (1 : Int) else 0) == y
  | _, _ => false

/-- Python `set.add`: lists and dicts are unhashable and raise. -/
def pySetAdd (acc : List PyVal) (v : PyVal) : Except String (List PyVal) :=
  match v with
  | .list _ => .error "TypeError: unhashable type: list"
  | .dict _ => .error "TypeError: unhashable type: dict"
  | _ => .ok (if acc.any (fun x => pyScalarBeq x v) then acc else acc ++ [v])

/-- Python `int > jsonvalue`: comparison with a non-number raises. -/
def pyIntGt (a : Int) (b : PyVal) : Except String Bool :=
  match b with
  | .int n => .ok (decide (n < a))
  | .bool x => .ok (decide ((if x then (1 : Int) else 0) < a))
  | _ => .error "TypeError: unsupported comparison"

/-! ## Course processing (`CourseProcessor.process_course`, course_processor.py) -/

/-- One record of the `processed_pages` list accumulated by
`process_course` (stored in the snapshot under the key `pages`). -/
def procPageVal (page_id : String) (pd : PageData) : PyVal :=
  .dict [("page_id", .str page_id), ("title", .str pd.title), ("url", .str pd.url),
         ("content_length", .int pd.body.length), ("version", .int pd.version)]

/-- One record of the `failed_pages` list. -/
def failRecVal (page_id error : String) : PyVal :=
  .dict [("id", .str page_id), ("error", .str error)]

/-- The `processing_result` dict written to
`onboarding/processed/{course_id}.json`.  Note the key `processed_pages`
holds `len(processed_pages)` — an integer — while the page records
themselves are stored under `pages`. -/
def processing_result_val (cfg : OnboardingConfig) (total_pages : Nat)
    (processed : List PyVal) (failures : List PyVal) : PyVal :=
  .dict [("course_id", .str cfg.id), ("course_name", .str cfg.name),
         ("total_pages", .int total_pages),
         ("processed_pages", .int processed.length),
         ("failed_pages", .int failures.length),
         ("pages", .list processed),
         ("failures", .list failures),
         ("embeddings_generated", .bool true),
         ("ai_course_generated", .bool false)]

/-! ## Generated artifacts (gemini_service.py data shapes)

The generation pipeline stores its outputs as JSON files; the shapes
below are the ones `generate_course_content` / `generate_quiz` produce
and `submit_quiz_answers` reads back. -/

structure QuizQuestion where
  question : String
  options : List String
  correct_answer : Int
  explanation : String
  difficulty : String
deriving DecidableEq, Repr

structure QuizData where
  course_id : String
  quiz_title : String
  module_number : Option Int
  difficulty : String
  total_questions : Nat
  questions : List QuizQuestion
deriving DecidableEq, Repr

/-- A module stub of the course outline (`module_structure` entries). -/
structure ModuleStub where
  module_number : Int
  title : String
  description : String
  topics : List String
deriving DecidableEq, Repr

/-- The `{overview, content, key_points, takeaways}` body of one module. -/
structure ModuleBody where
  overview : String
  content : String
  key_points : List String
  takeaways : List String
deriving DecidableEq, Repr

/-- A finished module: the stub fields merged (`**module_content`) with
the generated body. -/
structure GenModule where
  module_number : Int
  title : String
  description : String
  overview : String
  content : String
  key_points : List String
  takeaways : List String
deriving DecidableEq, Repr

structure SourcePageRef where
  id : String
  title : String
deriving DecidableEq, Repr

structure GenCourseData where
  course_id : String
  title : String
  description : String
  total_modules : Nat
  modules : List GenModule
  source_pages : List SourcePageRef
deriving DecidableEq, Repr

/-- One hit of `search_similar`: the chunk text plus the metadata fields
its consumers read (`page_id`, `page_title`); the distance is unused by
the synthesizer and elided. -/
structure SearchResult where
  text : List Char
  page_id : String
  page_title : String
deriving DecidableEq, Repr

/-! ## Persistent system state

The JSON files and Chroma collections the services own: one snapshot per
course under `onboarding/processed/`, one generated course under
`onboarding/courses/`, one quiz per `(course, module|final)` under
`onboarding/quizzes/`, one config file per course under `onboarding/`,
and the vector store. -/

structure SysState where
  vstore : VStore
  processed : String → Option PyVal
  courses : String → Option GenCourseData
  quizzes : String × Option Int → Option QuizData
  configs : String → Bool

/-- Step 2 of `process_course`: delete the chunks of every previously
indexed page that is no longer in the resolved page set, before any new
content is inserted. -/
def clear_removed_pages (vs : VStore) (course_id : String)
    (stored_page_ids page_ids : List String) : VStore :=
  stored_page_ids.foldl
    (fun vs old_page_id =>
      if old_page_id ∈ page_ids then vs
      else delete_page_content vs course_id old_page_id) vs

/-- Step 3 of `process_course`: fetch and embed each resolved page in
order; a failed fetch appends a failure record and continues, a
successful fetch adds the page content and appends a processed record.
(The embedding endpoint and the Chroma add are total parameters of the
model, so the only per-page failure mode is the fetch.) -/
def process_pages (E : ConfluenceEnv) (hash : List Char → List Char)
    (embed : List Char → List Int) (vs : VStore) (course_id : String) :
    List String → VStore × List PyVal × List PyVal
  | [] => (vs, [], [])
  | page_id :: rest =>
    match E.get_page_by_id page_id with
    | none =>
      let r := process_pages E hash embed vs course_id rest
      (r.1, r.2.1, failRecVal page_id "Page not found or no access" :: r.2.2)
    | some pd =>
      let r := process_pages E hash embed
        (add_page_content hash embed vs course_id page_id pd.title pd.body pd.url)
        course_id rest
      (r.1, procPageVal page_id pd :: r.2.1, r.2.2)

/-- `CourseProcessor.process_course`: resolve the page set, garbage-collect
pages that dropped out of it, fetch/chunk/embed the rest, and overwrite the
processing snapshot wholesale. -/
def process_course (E : ConfluenceEnv) (hash : List Char → List Char)
    (embed : List Char → List Int) (s : SysState) (cfg : OnboardingConfig) : SysState :=
  let page_ids := resolve_pages_process E cfg.linked_pages cfg.settings.folder_recursion
  let got := get_all_page_ids s.vstore cfg.id
  let vs1 := clear_removed_pages got.1 cfg.id got.2 page_ids
  let res := process_pages E hash embed vs1 cfg.id page_ids
  { s with
    vstore := res.1,
    processed := fupd s.processed cfg.id
      (some (processing_result_val cfg page_ids.length res.2.1 res.2.2)) }

/-- `get_processing_status`: read the snapshot file if present. -/
def get_processing_status (s : SysState) (course_id : String) : Option PyVal :=
  s.processed course_id

/-! ## Update detection (`CourseProcessor.check_for_updates`) -/

/-- An entry of the `changed_pages` report list. -/
structure ChangedPage where
  page_id : String
  title : String
  old_version : PyVal
  new_version : Int

structure UpdateReport where
  needs_update : Bool
  reason : String
  changed_pages : List ChangedPage
  new_pages : List String
  deleted_pages : List PyVal
  total_changes : Option Nat

/-- `_get_update_reason`: comma-joined summary of the non-zero counts. -/
def get_update_reason (new_pages : List String) (deleted_pages : List PyVal)
    (changed_pages : List ChangedPage) : String :=
  let reasons :=
    (if new_pages.isEmpty then [] else [toString new_pages.length ++ " new page(s)"])
    ++ (if deleted_pages.isEmpty then [] else [toString deleted_pages.length ++ " deleted page(s)"])
    ++ (if changed_pages.isEmpty then [] else [toString changed_pages.length ++ " updated page(s)"])
  if reasons.isEmpty then "No changes detected" else String.intercalate ", " reasons

/-- The generator
`next((p for p in status.get("processed_pages", []) if p["page_id"] == page_id), None)`:
first matching record, evaluating subscripts only up to the match. -/
def find_stored_page (status : PyVal) (page_id : String) : Except String (Option PyVal) := do
  let ppRaw ← pyGet status "processed_pages" (.list [])
  let items ← pyIter ppRaw
  items.foldlM
    (fun acc p =>
      match acc with
      | some _ => pure acc
      | none => do
        let v ← pySubscript p "page_id"
        pure (if pyStrEq v page_id then some p else none))
    (none : Option PyVal)

/-- The per-page body of the version-comparison loop.  The whole body sits
in a `try/except` that logs and skips the page, so any raising step (and a
`None` fetch, via `if page:`) yields `none`. -/
def check_page_changed (E : ConfluenceEnv) (status : PyVal) (page_id : String) :
    Option ChangedPage :=
  match E.get_page_by_id page_id with
  | none => none
  | some page =>
    let body : Except String (Option ChangedPage) := do
      let sp ← find_stored_page status page_id
      match sp with
      | none => pure none
      | some stored_page => do
        let stored_version ← pyGet stored_page "version" (.int 0)
        let gt ← pyIntGt page.version stored_version
        pure (if gt then
          some { page_id := page_id, title := page.title,
                 old_version := stored_version, new_version := page.version }
          else none)
    match body with
    | .error _ => none
    | .ok r => r

/-- `CourseProcessor.check_for_updates`: with no snapshot, report
needs-update; otherwise resolve the current page set, read the stored page
records from the snapshot key `processed_pages`, and classify pages as
new/deleted/changed.  Errors raised by the un-guarded snapshot reads
propagate (`Except.error`). -/
def check_for_updates (E : ConfluenceEnv) (s : SysState) (course_id : String)
    (cfg : OnboardingConfig) : Except String UpdateReport := do
  match get_processing_status s course_id with
  | none =>
    pure { needs_update := true, reason := "Course has never been processed",
           changed_pages := [], new_pages := [], deleted_pages := [],
           total_changes := none }
  | some status => do
    let page_ids := resolve_pages_check E cfg.linked_pages cfg.settings.folder_recursion
    let ppRaw ← pyGet status "processed_pages" (.list [])
    let items ← pyIter ppRaw
    let processed_page_ids ← items.foldlM
      (fun acc p => do
        let v ← pySubscript p "page_id"
        pySetAdd acc v)
      ([] : List PyVal)
    let current_page_ids := page_ids.dedup
    let new_pages := current_page_ids.filter
      (fun x => !(processed_page_ids.any (fun v => pyStrEq v x)))
    let deleted_pages := processed_page_ids.filter
      (fun v => !(current_page_ids.any (fun x => pyStrEq v x)))
    let potentially_changed := current_page_ids.filter
      (fun x => processed_page_ids.any (fun v => pyStrEq v x))
    let changed_pages := potentially_changed.filterMap (check_page_changed E status)
    let needs_update := !new_pages.isEmpty || !deleted_pages.isEmpty || !changed_pages.isEmpty
    pure { needs_update := needs_update,
           reason := get_update_reason new_pages deleted_pages changed_pages,
           new_pages := new_pages, deleted_pages := deleted_pages,
           changed_pages := changed_pages,
           total_changes := some (new_pages.length + deleted_pages.length + changed_pages.length) }

/-! ## Deletion (`delete_course_data`, `delete_generated_course`, and the
`DELETE /configs/{id}` route in api/onboarding.py) -/

/-- `CourseProcessor.delete_course_data`: drop the vector collection and
the processing snapshot. -/
def delete_course_data (s : SysState) (course_id : String) : SysState :=
  { s with
    vstore := delete_course_collection s.vstore course_id,
    processed := fupd s.processed course_id none }

/-- `GeminiService.delete_generated_course`: drop the generated-course
record if present. -/
def delete_generated_course (s : SysState) (course_id : String) : SysState :=
  { s with courses := fupd s.courses course_id none }

/-- `OnboardingConfigStorage.delete`: remove the config file, reporting
whether it existed. -/
def storage_delete (s : SysState) (config_id : String) : SysState × Bool :=
  if s.configs config_id then ({ s with configs := fupd s.configs config_id false }, true)
  else (s, false)

/-- The `DELETE /configs/{config_id}` route: if the config exists, delete
it and then clean up via `delete_course_data` and
`delete_generated_course`; a missing config returns 404 without cleanup.
No step touches the stored quizzes. -/
def delete_config (s : SysState) (config_id : String) : SysState :=
  let del := storage_delete s config_id
  if del.2 then delete_generated_course (delete_course_data del.1 config_id) config_id
  else del.1

/-! ## Store lemmas -/

theorem fupd_self {α β : Type} [DecidableEq α] (f : α → β) (k : α) (v : β) :
    fupd f k v k = v := by simp [fupd]

theorem fupd_idem {α β : Type} [DecidableEq α] (f : α → β) (k : α) (v : β) :
    fupd (fupd f k v) k v = fupd f k v := by
  funext m
  by_cases h : m = k <;> simp [fupd, h]

theorem fupd_eq_self {α β : Type} [DecidableEq α] (f : α → β) (k : α) (v : β)
    (h : f k = v) : fupd f k v = f := by
  funext m
  by_cases hm : m = k <;> simp [fupd, hm]
  rw [h]

theorem get_or_create_of_isSome (vs : VStore) (n : String) (h : (vs n).isSome) :
    get_or_create_collection vs n = vs := by
  unfold get_or_create_collection
  cases hv : vs n with
  | some l => rfl
  | none => rw [hv] at h; simp at h

theorem isSome_get_or_create (vs : VStore) (n : String) :
    ((get_or_create_collection vs n) n).isSome := by
  unfold get_or_create_collection
  cases hv : vs n with
  | some l => simp [hv]
  | none => simp [fupd]

theorem colEntries_get_or_create (vs : VStore) (n : String) :
    colEntries (get_or_create_collection vs n) n = colEntries vs n := by
  unfold get_or_create_collection colEntries
  cases hv : vs n with
  | some l => simp [hv]
  | none => simp [hv, fupd]

theorem colEntries_of_isSome (vs : VStore) (n : String) (h : (vs n).isSome) :
    vs n = some (colEntries vs n) := by
  cases hv : vs n with
  | some l => simp [colEntries, hv]
  | none => rw [hv] at h; simp at h

theorem mem_chroma_add_of_mem (x : ChunkEntry) :
    ∀ (new col : List ChunkEntry), x ∈ col → x ∈ chroma_add col new := by
  intro new
  induction new with
  | nil => intro col h; simpa [chroma_add] using h
  | cons e rest ih =>
    intro col h
    show x ∈ chroma_add (if col.any (fun y => y.id == e.id) then col else col ++ [e]) rest
    apply ih
    split
    · exact h
    · exact List.mem_append_left _ h

theorem mem_chroma_add (x : ChunkEntry) :
    ∀ (new col : List ChunkEntry), x ∈ chroma_add col new → x ∈ col ∨ x ∈ new := by
  intro new
  induction new with
  | nil => intro col h; exact Or.inl (by simpa [chroma_add] using h)
  | cons e rest ih =>
    intro col h
    have h' : x ∈ chroma_add (if col.any (fun y => y.id == e.id) then col else col ++ [e]) rest := h
    rcases ih _ h' with hcol | hrest
    · by_cases hc : col.any (fun y => y.id == e.id)
      · rw [if_pos hc] at hcol
        exact Or.inl hcol
      · rw [if_neg hc] at hcol
        rcases List.mem_append.mp hcol with h1 | h1
        · exact Or.inl h1
        · have : x = e := by simpa using h1
          exact Or.inr (this ▸ List.mem_cons_self e rest)
    · exact Or.inr (List.mem_cons_of_mem e hrest)

theorem id_mem_chroma_add_mono (x : String) :
    ∀ (new col : List ChunkEntry), x ∈ col.map (·.id) → x ∈ (chroma_add col new).map (·.id) := by
  intro new
  induction new with
  | nil => intro col h; simpa [chroma_add] using h
  | cons e rest ih =>
    intro col h
    show x ∈ ((chroma_add (if col.any (fun y => y.id == e.id) then col else col ++ [e]) rest).map (·.id))
    apply ih
    split
    · exact h
    · rcases List.mem_map.mp h with ⟨y, hy, rfl⟩
      exact List.mem_map.mpr ⟨y, List.mem_append_left _ hy, rfl⟩

theorem id_mem_chroma_add_self :
    ∀ (new col : List ChunkEntry), ∀ e ∈ new, e.id ∈ (chroma_add col new).map (·.id) := by
  intro new
  induction new with
  | nil => intro col e he; simp at he
  | cons a rest ih =>
    intro col e he
    show e.id ∈ ((chroma_add (if col.any (fun y => y.id == a.id) then col else col ++ [a]) rest).map (·.id))
    rcases List.mem_cons.mp he with rfl | hrest
    · apply id_mem_chroma_add_mono
      by_cases hc : col.any (fun y => y.id == e.id)
      · rw [if_pos hc]
        rcases List.any_eq_true.mp hc with ⟨y, hy, hid⟩
        have : y.id = e.id := by simpa using hid
        exact List.mem_map.mpr ⟨y, hy, this⟩
      · rw [if_neg hc]
        exact List.mem_map.mpr ⟨e, List.mem_append_right _ (List.mem_singleton_self e), rfl⟩
    · exact ih _ e hrest

theorem chroma_add_all_present :
    ∀ (new col : List ChunkEntry), (∀ e ∈ new, e.id ∈ col.map (·.id)) →
      chroma_add col new = col := by
  intro new
  induction new with
  | nil => intro col _; rfl
  | cons e rest ih =>
    intro col h
    have he : e.id ∈ col.map (·.id) := h e (List.mem_cons_self e rest)
    have hc : col.any (fun y => y.id == e.id) = true := by
      rcases List.mem_map.mp he with ⟨y, hy, hid⟩
      exact List.any_eq_true.mpr ⟨y, hy, by simpa using hid⟩
    show chroma_add (if col.any (fun y => y.id == e.id) then col else col ++ [e]) rest = col
    rw [if_pos hc]
    exact ih col (fun x hx => h x (List.mem_cons_of_mem e hx))

theorem colEntries_fupd_self (vs : VStore) (n : String) (l : List ChunkEntry) :
    colEntries (fupd vs n (some l)) n = l := by
  unfold colEntries
  rw [fupd_self]
  rfl

theorem page_entries_page_id (hash : List Char → List Char) (embed : List Char → List Int)
    (page_id page_title page_url : String) (chunks : List (List Char)) :
    ∀ e ∈ page_entries hash embed page_id page_title page_url chunks, e.page_id = page_id := by
  intro e he
  rcases List.mem_map.mp he with ⟨ic, _, rfl⟩
  rfl

theorem mem_add_page_content (hash : List Char → List Char) (embed : List Char → List Int)
    (vs : VStore) (course_id page_id page_title : String) (page_content : List Char)
    (page_url : String) (e : ChunkEntry)
    (he : e ∈ colEntries (add_page_content hash embed vs course_id page_id page_title
      page_content page_url) (collection_name course_id)) :
    e ∈ colEntries vs (collection_name course_id) ∨ e.page_id = page_id := by
  simp only [add_page_content] at he
  split at he
  · rw [colEntries_get_or_create] at he
    exact Or.inl he
  · rw [colEntries_fupd_self, colEntries_get_or_create] at he
    rcases mem_chroma_add e _ _ he with h1 | h1
    · exact Or.inl h1
    · exact Or.inr (page_entries_page_id _ _ _ _ _ _ e h1)

theorem ids_mono_add_page_content (hash : List Char → List Char)
    (embed : List Char → List Int) (vs : VStore) (course_id page_id page_title : String)
    (page_content : List Char) (page_url : String) (x : String)
    (hx : x ∈ (colEntries vs (collection_name course_id)).map (·.id)) :
    x ∈ (colEntries (add_page_content hash embed vs course_id page_id page_title
      page_content page_url) (collection_name course_id)).map (·.id) := by
  simp only [add_page_content]
  split
  · rwa [colEntries_get_or_create]
  · rw [colEntries_fupd_self, colEntries_get_or_create]
    exact id_mem_chroma_add_mono x _ _ hx

theorem ids_present_add_page_content (hash : List Char → List Char)
    (embed : List Char → List Int) (vs : VStore) (course_id page_id page_title : String)
    (page_content : List Char) (page_url : String) (e : ChunkEntry)
    (he : e ∈ page_entries hash embed page_id page_title page_url (page_chunks page_content)) :
    e.id ∈ (colEntries (add_page_content hash embed vs course_id page_id page_title
      page_content page_url) (collection_name course_id)).map (·.id) := by
  simp only [add_page_content]
  split
  · rename_i hemp
    rw [show page_chunks page_content = [] from by simpa using hemp] at he
    simp [page_entries] at he
  · rw [colEntries_fupd_self]
    exact id_mem_chroma_add_self _ _ e he

theorem add_page_content_identity (hash : List Char → List Char)
    (embed : List Char → List Int) (vs : VStore) (course_id page_id page_title : String)
    (page_content : List Char) (page_url : String)
    (hsome : (vs (collection_name course_id)).isSome)
    (hids : ∀ e ∈ page_entries hash embed page_id page_title page_url (page_chunks page_content),
      e.id ∈ (colEntries vs (collection_name course_id)).map (·.id)) :
    add_page_content hash embed vs course_id page_id page_title page_content page_url = vs := by
  simp only [add_page_content]
  rw [get_or_create_of_isSome vs _ hsome]
  split
  · rfl
  · rw [chroma_add_all_present _ _ hids]
    exact fupd_eq_self _ _ _ (colEntries_of_isSome vs _ hsome)

theorem isSome_add_page_content (hash : List Char → List Char)
    (embed : List Char → List Int) (vs : VStore) (course_id page_id page_title : String)
    (page_content : List Char) (page_url : String) (n : String)
    (h : (vs n).isSome) :
    ((add_page_content hash embed vs course_id page_id page_title page_content page_url) n).isSome := by
  simp only [add_page_content]
  have hg : ((get_or_create_collection vs (collection_name course_id)) n).isSome := by
    unfold get_or_create_collection
    cases hv : vs (collection_name course_id) with
    | some l => exact h
    | none =>
      by_cases hn : n = collection_name course_id
      · subst hn; simp [fupd]
      · simpa [fupd, hn] using h
  split
  · exact hg
  · by_cases hn : n = collection_name course_id
    · subst hn; simp [fupd]
    · simpa [fupd, hn] using hg

theorem mem_delete_page_content (vs : VStore) (course_id page_id : String) (e : ChunkEntry)
    (he : e ∈ colEntries (delete_page_content vs course_id page_id) (collection_name course_id)) :
    e ∈ colEntries vs (collection_name course_id) ∧ e.page_id ≠ page_id := by
  simp only [delete_page_content] at he
  rw [colEntries_fupd_self, colEntries_get_or_create] at he
  have h1 := List.mem_of_mem_filter he
  have h2 := List.of_mem_filter he
  exact ⟨h1, by simpa using h2⟩

theorem isSome_delete_page_content (vs : VStore) (course_id page_id : String) (n : String)
    (h : (vs n).isSome) :
    ((delete_page_content vs course_id page_id) n).isSome := by
  simp only [delete_page_content]
  by_cases hn : n = collection_name course_id
  · subst hn; simp [fupd]
  · rw [show (fupd (get_or_create_collection vs (collection_name course_id))
        (collection_name course_id) (some _)) n
        = (get_or_create_collection vs (collection_name course_id)) n by simp [fupd, hn]]
    unfold get_or_create_collection
    cases hv : vs (collection_name course_id) with
    | some l => exact h
    | none => simpa [fupd, hn] using h

theorem mem_clear_removed_pages (course_id : String) (page_ids : List String)
    (e : ChunkEntry) :
    ∀ (stored : List String) (vs : VStore),
      e ∈ colEntries (clear_removed_pages vs course_id stored page_ids)
        (collection_name course_id) →
      e ∈ colEntries vs (collection_name course_id)
        ∧ ∀ x ∈ stored, x ∉ page_ids → e.page_id ≠ x := by
  intro stored
  induction stored with
  | nil =>
    intro vs he
    exact ⟨by simpa [clear_removed_pages] using he, by simp⟩
  | cons x rest ih =>
    intro vs he
    by_cases hx : x ∈ page_ids
    · have he' : e ∈ colEntries (clear_removed_pages vs course_id rest page_ids)
          (collection_name course_id) := by
        simpa [clear_removed_pages, hx] using he
      rcases ih vs he' with ⟨h1, h2⟩
      refine ⟨h1, ?_⟩
      intro y hy hyn
      rcases List.mem_cons.mp hy with rfl | hy'
      · exact absurd hx hyn
      · exact h2 y hy' hyn
    · have he' : e ∈ colEntries (clear_removed_pages
          (delete_page_content vs course_id x) course_id rest page_ids)
          (collection_name course_id) := by
        simpa [clear_removed_pages, hx] using he
      rcases ih _ he' with ⟨h1, h2⟩
      rcases mem_delete_page_content vs course_id x e h1 with ⟨h3, h4⟩
      refine ⟨h3, ?_⟩
      intro y hy hyn
      rcases List.mem_cons.mp hy with rfl | hy'
      · exact h4
      · exact h2 y hy' hyn

theorem clear_removed_pages_identity (course_id : String) (page_ids : List String) :
    ∀ (stored : List String) (vs : VStore), (∀ x ∈ stored, x ∈ page_ids) →
      clear_removed_pages vs course_id stored page_ids = vs := by
  intro stored
  induction stored with
  | nil => intro vs _; rfl
  | cons x rest ih =>
    intro vs h
    have hx : x ∈ page_ids := h x (List.mem_cons_self x rest)
    show clear_removed_pages vs course_id (x :: rest) page_ids = vs
    unfold clear_removed_pages
    simp only [List.foldl_cons, if_pos hx]
    exact ih vs (fun y hy => h y (List.mem_cons_of_mem x hy))

theorem mem_process_pages (E : ConfluenceEnv) (hash : List Char → List Char)
    (embed : List Char → List Int) (course_id : String) (e : ChunkEntry) :
    ∀ (page_ids : List String) (vs : VStore),
      e ∈ colEntries (process_pages E hash embed vs course_id page_ids).1
        (collection_name course_id) →
      e ∈ colEntries vs (collection_name course_id) ∨ e.page_id ∈ page_ids := by
  intro page_ids
  induction page_ids with
  | nil => intro vs he; exact Or.inl (by simpa [process_pages] using he)
  | cons pid rest ih =>
    intro vs he
    unfold process_pages at he
    cases hf : E.get_page_by_id pid with
    | none =>
      rw [hf] at he
      rcases ih vs he with h | h
      · exact Or.inl h
      · exact Or.inr (List.mem_cons_of_mem pid h)
    | some pd =>
      rw [hf] at he
      rcases ih _ he with h | h
      · rcases mem_add_page_content hash embed vs course_id pid pd.title pd.body pd.url e h with h1 | h1
        · exact Or.inl h1
        · exact Or.inr (h1 ▸ List.mem_cons_self pid rest)
      · exact Or.inr (List.mem_cons_of_mem pid h)

theorem ids_mono_process_pages (E : ConfluenceEnv) (hash : List Char → List Char)
    (embed : List Char → List Int) (course_id : String) (x : String) :
    ∀ (page_ids : List String) (vs : VStore),
      x ∈ (colEntries vs (collection_name course_id)).map (·.id) →
      x ∈ (colEntries (process_pages E hash embed vs course_id page_ids).1
        (collection_name course_id)).map (·.id) := by
  intro page_ids
  induction page_ids with
  | nil => intro vs hx; simpa [process_pages] using hx
  | cons pid rest ih =>
    intro vs hx
    unfold process_pages
    cases hf : E.get_page_by_id pid with
    | none => exact ih vs hx
    | some pd =>
      exact ih _ (ids_mono_add_page_content hash embed vs course_id pid pd.title pd.body pd.url x hx)

theorem ids_complete_process_pages (E : ConfluenceEnv) (hash : List Char → List Char)
    (embed : List Char → List Int) (course_id : String) :
    ∀ (page_ids : List String) (vs : VStore) (pid : String) (pd : PageData),
      pid ∈ page_ids → E.get_page_by_id pid = some pd →
      ∀ e ∈ page_entries hash embed pid pd.title pd.url (page_chunks pd.body),
        e.id ∈ (colEntries (process_pages E hash embed vs course_id page_ids).1
          (collection_name course_id)).map (·.id) := by
  intro page_ids
  induction page_ids with
  | nil => intro vs pid pd hmem; simp at hmem
  | cons q rest ih =>
    intro vs pid pd hmem hf e he
    rcases List.mem_cons.mp hmem with rfl | hmem'
    · unfold process_pages
      rw [hf]
      exact ids_mono_process_pages E hash embed course_id e.id rest _
        (ids_present_add_page_content hash embed vs course_id pid pd.title pd.body pd.url e he)
    · unfold process_pages
      cases hq : E.get_page_by_id q with
      | none => exact ih vs pid pd hmem' hf e he
      | some qd => exact ih _ pid pd hmem' hf e he

theorem process_pages_identity (E : ConfluenceEnv) (hash : List Char → List Char)
    (embed : List Char → List Int) (course_id : String) :
    ∀ (page_ids : List String) (vs : VStore),
      (vs (collection_name course_id)).isSome →
      (∀ pid ∈ page_ids, ∀ pd : PageData, E.get_page_by_id pid = some pd →
        ∀ e ∈ page_entries hash embed pid pd.title pd.url (page_chunks pd.body),
          e.id ∈ (colEntries vs (collection_name course_id)).map (·.id)) →
      (process_pages E hash embed vs course_id page_ids).1 = vs := by
  intro page_ids
  induction page_ids with
  | nil => intro vs _ _; rfl
  | cons pid rest ih =>
    intro vs hsome hids
    unfold process_pages
    cases hf : E.get_page_by_id pid with
    | none =>
      exact ih vs hsome (fun q hq qd hqd e he => hids q (List.mem_cons_of_mem pid hq) qd hqd e he)
    | some pd =>
      have hid : add_page_content hash embed vs course_id pid pd.title pd.body pd.url = vs :=
        add_page_content_identity hash embed vs course_id pid pd.title pd.body pd.url hsome
          (hids pid (List.mem_cons_self pid rest) pd hf)
      show (process_pages E hash embed
        (add_page_content hash embed vs course_id pid pd.title pd.body pd.url)
        course_id rest).1 = vs
      rw [hid]
      exact ih vs hsome (fun q hq qd hqd e he => hids q (List.mem_cons_of_mem pid hq) qd hqd e he)

theorem process_pages_records_indep (E : ConfluenceEnv) (hash : List Char → List Char)
    (embed : List Char → List Int) (course_id : String) :
    ∀ (page_ids : List String) (vs vs' : VStore),
      (process_pages E hash embed vs course_id page_ids).2
        = (process_pages E hash embed vs' course_id page_ids).2 := by
  intro page_ids
  induction page_ids with
  | nil => intro vs vs'; rfl
  | cons pid rest ih =>
    intro vs vs'
    unfold process_pages
    cases hf : E.get_page_by_id pid with
    | none => simp only []; rw [ih vs vs']
    | some pd => simp only []; rw [ih]

theorem isSome_process_pages (E : ConfluenceEnv) (hash : List Char → List Char)
    (embed : List Char → List Int) (course_id : String) (n : String) :
    ∀ (page_ids : List String) (vs : VStore), (vs n).isSome →
      ((process_pages E hash embed vs course_id page_ids).1 n).isSome := by
  intro page_ids
  induction page_ids with
  | nil => intro vs h; exact h
  | cons pid rest ih =>
    intro vs h
    unfold process_pages
    cases hf : E.get_page_by_id pid with
    | none => exact ih vs h
    | some pd =>
      exact ih _ (isSome_add_page_content hash embed vs course_id pid pd.title pd.body pd.url n h)

theorem isSome_clear_removed_pages (course_id : String) (page_ids : List String) (n : String) :
    ∀ (stored : List String) (vs : VStore), (vs n).isSome →
      ((clear_removed_pages vs course_id stored page_ids) n).isSome := by
  intro stored
  induction stored with
  | nil => intro vs h; exact h
  | cons x rest ih =>
    intro vs h
    unfold clear_removed_pages
    simp only [List.foldl_cons]
    show ((clear_removed_pages (if x ∈ page_ids then vs
      else delete_page_content vs course_id x) course_id rest page_ids) n).isSome
    apply ih
    split
    · exact h
    · exact isSome_delete_page_content vs course_id x n h

theorem SysState.ext' (a b : SysState) (h1 : a.vstore = b.vstore)
    (h2 : a.processed = b.processed) (h3 : a.courses = b.courses)
    (h4 : a.quizzes = b.quizzes) (h5 : a.configs = b.configs) : a = b := by
  cases a; cases b; simp_all

/-- Every entry of the course collection after `process_course` carries a
`page_id` from the resolved page set: step 2 deletes the rest before step 3
inserts only resolved pages. -/
theorem process_course_entries_resolved (E : ConfluenceEnv) (hash : List Char → List Char)
    (embed : List Char → List Int) (s : SysState) (cfg : OnboardingConfig) :
    ∀ e ∈ colEntries (process_course E hash embed s cfg).vstore (collection_name cfg.id),
      e.page_id ∈ resolve_pages_process E cfg.linked_pages cfg.settings.folder_recursion := by
  intro e he
  simp only [process_course, get_all_page_ids] at he
  rcases mem_process_pages E hash embed cfg.id e _ _ he with h1 | h1
  · rcases mem_clear_removed_pages cfg.id _ e _ _ h1 with ⟨h2, h3⟩
    by_cases hmem : e.page_id ∈ resolve_pages_process E cfg.linked_pages cfg.settings.folder_recursion
    · exact hmem
    · exact absurd rfl
        (h3 e.page_id (List.mem_dedup.mpr (List.mem_map.mpr ⟨e, h2, rfl⟩)) hmem)
  · exact h1

theorem isSome_process_course_col (E : ConfluenceEnv) (hash : List Char → List Char)
    (embed : List Char → List Int) (s : SysState) (cfg : OnboardingConfig) :
    ((process_course E hash embed s cfg).vstore (collection_name cfg.id)).isSome := by
  simp only [process_course, get_all_page_ids]
  apply isSome_process_pages
  apply isSome_clear_removed_pages
  exact isSome_get_or_create s.vstore (collection_name cfg.id)

theorem process_course_ids_complete (E : ConfluenceEnv) (hash : List Char → List Char)
    (embed : List Char → List Int) (s : SysState) (cfg : OnboardingConfig) :
    ∀ pid ∈ resolve_pages_process E cfg.linked_pages cfg.settings.folder_recursion,
      ∀ pd : PageData, E.get_page_by_id pid = some pd →
      ∀ e ∈ page_entries hash embed pid pd.title pd.url (page_chunks pd.body),
        e.id ∈ (colEntries (process_course E hash embed s cfg).vstore
          (collection_name cfg.id)).map (·.id) := by
  intro pid hpid pd hpd e he
  simp only [process_course, get_all_page_ids]
  exact ids_complete_process_pages E hash embed cfg.id _ _ pid pd hpid hpd e he

/-- Re-running `process_course` on a state whose course collection already
contains every resolved page entry changes nothing in the vector store. -/
theorem process_course_vstore_stable (E : ConfluenceEnv) (hash : List Char → List Char)
    (embed : List Char → List Int) (s1 : SysState) (cfg : OnboardingConfig)
    (hsome : (s1.vstore (collection_name cfg.id)).isSome)
    (hsub : ∀ e ∈ colEntries s1.vstore (collection_name cfg.id),
      e.page_id ∈ resolve_pages_process E cfg.linked_pages cfg.settings.folder_recursion)
    (hids : ∀ pid ∈ resolve_pages_process E cfg.linked_pages cfg.settings.folder_recursion,
      ∀ pd : PageData, E.get_page_by_id pid = some pd →
      ∀ e ∈ page_entries hash embed pid pd.title pd.url (page_chunks pd.body),
        e.id ∈ (colEntries s1.vstore (collection_name cfg.id)).map (·.id)) :
    (process_course E hash embed s1 cfg).vstore = s1.vstore := by
  simp only [process_course, get_all_page_ids]
  rw [get_or_create_of_isSome _ _ hsome]
  rw [clear_removed_pages_identity cfg.id _ _ _ ?stored]
  case stored =>
    intro x hx
    rcases List.mem_map.mp (List.mem_dedup.mp hx) with ⟨e, he, rfl⟩
    exact hsub e he
  exact process_pages_identity E hash embed cfg.id _ _ hsome hids

/-- The snapshot value written by `process_course` depends only on the
environment and the config, not on the starting state. -/
def course_snapshot_val (E : ConfluenceEnv) (hash : List Char → List Char)
    (embed : List Char → List Int) (cfg : OnboardingConfig) : PyVal :=
  let page_ids := resolve_pages_process E cfg.linked_pages cfg.settings.folder_recursion
  let r := process_pages E hash embed (fun _ => none) cfg.id page_ids
  processing_result_val cfg page_ids.length r.2.1 r.2.2

theorem process_course_processed (E : ConfluenceEnv) (hash : List Char → List Char)
    (embed : List Char → List Int) (s : SysState) (cfg : OnboardingConfig) :
    (process_course E hash embed s cfg).processed
      = fupd s.processed cfg.id (some (course_snapshot_val E hash embed cfg)) := by
  simp only [process_course, course_snapshot_val, get_all_page_ids]
  rw [process_pages_records_indep E hash embed cfg.id
    (resolve_pages_process E cfg.linked_pages cfg.settings.folder_recursion) _ (fun _ => none)]

/-- C5: the chunk IDs are a deterministic function of page ID, chunk index
and content hash, so re-running `process_course` over identical source
content is a no-op: the whole state, hence the chunk-ID list and the chunk
count of the course collection, is unchanged by the second run. -/
theorem claim_C5_process_course_idempotent (E : ConfluenceEnv)
    (hash : List Char → List Char) (embed : List Char → List Int)
    (s : SysState) (cfg : OnboardingConfig) :
    process_course E hash embed (process_course E hash embed s cfg) cfg
      = process_course E hash embed s cfg
    ∧ (colEntries (process_course E hash embed (process_course E hash embed s cfg) cfg).vstore
        (collection_name cfg.id)).map (·.id)
      = (colEntries (process_course E hash embed s cfg).vstore (collection_name cfg.id)).map (·.id)
    ∧ (colEntries (process_course E hash embed (process_course E hash embed s cfg) cfg).vstore
        (collection_name cfg.id)).length
      = (colEntries (process_course E hash embed s cfg).vstore (collection_name cfg.id)).length := by
  have hmain : process_course E hash embed (process_course E hash embed s cfg) cfg
      = process_course E hash embed s cfg := by
    apply SysState.ext'
    · exact process_course_vstore_stable E hash embed _ cfg
        (isSome_process_course_col E hash embed s cfg)
        (process_course_entries_resolved E hash embed s cfg)
        (process_course_ids_complete E hash embed s cfg)
    · rw [process_course_processed E hash embed (process_course E hash embed s cfg) cfg,
          process_course_processed E hash embed s cfg]
      exact fupd_idem _ _ _
    · rfl
    · rfl
    · rfl
  exact ⟨hmain, by rw [hmain], by rw [hmain]⟩

/-- C6: a page indexed by a previous run but absent from the newly resolved
page set is removed by the garbage-collection step (which runs before any
insertion), and `get_all_page_ids` after the run does not report it. -/
theorem claim_C6_removed_page_garbage_collected (E : ConfluenceEnv)
    (hash : List Char → List Char) (embed : List Char → List Int) (s : SysState)
    (cfg : OnboardingConfig) (p : String)
    (h1 : p ∈ (colEntries s.vstore (collection_name cfg.id)).map (·.page_id))
    (h2 : p ∉ resolve_pages_process E cfg.linked_pages cfg.settings.folder_recursion) :
    p ∉ (get_all_page_ids (process_course E hash embed s cfg).vstore cfg.id).2
    ∧ p ∉ (colEntries (clear_removed_pages (get_all_page_ids s.vstore cfg.id).1 cfg.id
        (get_all_page_ids s.vstore cfg.id).2
        (resolve_pages_process E cfg.linked_pages cfg.settings.folder_recursion))
        (collection_name cfg.id)).map (·.page_id) := by
  constructor
  · intro hp
    simp only [get_all_page_ids] at hp
    rw [colEntries_get_or_create] at hp
    rcases List.mem_map.mp (List.mem_dedup.mp hp) with ⟨e, he, hpe⟩
    exact h2 (hpe ▸ process_course_entries_resolved E hash embed s cfg e he)
  · intro hp
    rcases List.mem_map.mp hp with ⟨e, he, hpe⟩
    rcases mem_clear_removed_pages cfg.id _ e _ _ he with ⟨hin, hprop⟩
    refine hprop p ?_ h2 hpe
    simp only [get_all_page_ids] at hin ⊢
    exact List.mem_dedup.mpr (List.mem_map.mpr ⟨e, hin, hpe⟩)

/-- C7: with folder recursion on and `linked_pages = ["P1"]`, if the child
check reports P1 a folder with recursive children P2 and P3, the resolved
page set is exactly the two children; the expanded parent is excluded. -/
theorem claim_C7_folder_expansion_excludes_parent (E : ConfluenceEnv)
    (hf : E.is_page_a_folder "P1" = some true)
    (hc : E.get_child_pages "P1" = some ["P2", "P3"]) :
    ∀ x : String, x ∈ resolve_pages_process E ["P1"] true ↔ (x = "P2" ∨ x = "P3") := by
  intro x
  unfold resolve_pages_process
  rw [if_pos rfl]
  simp only [List.foldl_cons, List.foldl_nil, hf, hc]
  show x ∈ setInsert (setInsert [] "P2") "P3" ↔ _
  simp [setInsert]

/-- Concrete fixture for the C6 witness: a collection holding one chunk of
page `B`, and a config that now links only page `A`. -/
def c6entry : ChunkEntry :=
  { id := "B_chunk_0_00000000", doc := "old".data, emb := [], page_id := "B",
    page_title := "B", chunk_index := 0, total_chunks := 1, page_url := "" }

def emptySysState : SysState :=
  { vstore := fun _ => none, processed := fun _ => none, courses := fun _ => none,
    quizzes := fun _ => none, configs := fun _ => false }

def c6state : SysState :=
  { emptySysState with
    vstore := fupd (fun _ => none) (collection_name "c6") (some [c6entry]) }

def c6env : ConfluenceEnv :=
  { is_page_a_folder := fun _ => some false,
    get_child_pages := fun _ => some [],
    get_page_by_id := fun p =>
      if p = "A" then some { title := "A", body := "Fresh body of page A.".data,
                             url := "u/A", version := 1 }
      else none }

def c6cfg : OnboardingConfig :=
  { id := "c6", name := "course six", instructions := "", linked_pages := ["A"],
    settings := { folder_recursion := false, test_at_end := false } }

def c6hash : List Char → List Char := fun _ => "0000000000000000".data

def c6embed : List Char → List Int := fun _ => [0]

/-- Witness for C6 at a concrete input. -/
theorem claim_C6_removed_page_garbage_collected_witness :
    ("B" ∈ (colEntries c6state.vstore (collection_name c6cfg.id)).map (·.page_id))
    ∧ ("B" ∉ resolve_pages_process c6env c6cfg.linked_pages c6cfg.settings.folder_recursion)
    ∧ ("B" ∉ (get_all_page_ids (process_course c6env c6hash c6embed c6state c6cfg).vstore c6cfg.id).2
       ∧ "B" ∉ (colEntries (clear_removed_pages (get_all_page_ids c6state.vstore c6cfg.id).1 c6cfg.id
          (get_all_page_ids c6state.vstore c6cfg.id).2
          (resolve_pages_process c6env c6cfg.linked_pages c6cfg.settings.folder_recursion))
          (collection_name c6cfg.id)).map (·.page_id)) :=
  ⟨by decide, by decide,
    claim_C6_removed_page_garbage_collected c6env c6hash c6embed c6state c6cfg "B"
      (by decide) (by decide)⟩

/-- Concrete environment for the C7 witness. -/
def c7env : ConfluenceEnv :=
  { is_page_a_folder := fun p => if p = "P1" then some true else some false,
    get_child_pages := fun p => if p = "P1" then some ["P2", "P3"] else some [],
    get_page_by_id := fun _ => none }

/-- Witness for C7: at the concrete environment, the expanded parent P1 is
not in the resolved set. -/
theorem claim_C7_folder_expansion_excludes_parent_witness :
    c7env.is_page_a_folder "P1" = some true
    ∧ c7env.get_child_pages "P1" = some ["P2", "P3"]
    ∧ ("P1" ∈ resolve_pages_process c7env ["P1"] true ↔ ("P1" = "P2" ∨ "P1" = "P3")) :=
  ⟨rfl, rfl, claim_C7_folder_expansion_excludes_parent c7env rfl rfl "P1"⟩

/-! ## C1: `check_for_updates` against a snapshot written by `process_course`

`process_course` stores the integer page count under the snapshot key
`processed_pages` (the records live under `pages`), while
`check_for_updates` iterates `status.get("processed_pages", [])` as a list
of page records.  On every snapshot a successful `process_course` run
writes, that iteration raises `TypeError: 'int' object is not iterable`
before any classification happens. -/

def c1env_v1 : ConfluenceEnv :=
  { is_page_a_folder := fun _ => some false,
    get_child_pages := fun _ => some [],
    get_page_by_id := fun p =>
      if p = "A" then some { title := "Page A", body := "Alpha content.".data,
                             url := "u/A", version := 1 }
      else none }

def c1env_v2 : ConfluenceEnv :=
  { is_page_a_folder := fun _ => some false,
    get_child_pages := fun _ => some [],
    get_page_by_id := fun p =>
      if p = "A" then some { title := "Page A", body := "Alpha content.".data,
                             url := "u/A", version := 2 }
      else none }

def c1cfg : OnboardingConfig :=
  { id := "c1", name := "Course One", instructions := "", linked_pages := ["A"],
    settings := { folder_recursion := false, test_at_end := false } }

/-- C1 fails on the code: process page A at version 1 (writing the
snapshot), then check for updates when the fresh fetch reports version 2.
The spec says A must be classified into `changed_pages` with
`(old_version, new_version) = (1, 2)`; the code instead raises a
`TypeError` while reading the snapshot, because `process_course` stored an
integer count under the key `processed_pages` that `check_for_updates`
expects to hold the page-record list. -/
theorem claim_C1_check_for_updates_snapshot_mismatch :
    check_for_updates c1env_v2
      (process_course c1env_v1 c6hash c6embed emptySysState c1cfg) "c1" c1cfg
      = Except.error "TypeError: int object is not iterable" := by
  rfl

/-! ## C2: course deletion

The delete route removes the config file, then calls
`delete_course_data` (vector collection + snapshot) and
`delete_generated_course` (generated-course record).  Nothing in the
deletion path touches `onboarding/quizzes/`. -/

def c2quiz : QuizData :=
  { course_id := "c2", quiz_title := "Final Assessment", module_number := none,
    difficulty := "medium", total_questions := 1,
    questions := [{ question := "Q1", options := ["a", "b", "c", "d"],
                    correct_answer := 0, explanation := "E1", difficulty := "medium" }] }

def c2state : SysState :=
  { vstore := fupd (fun _ => none) (collection_name "c2") (some []),
    processed := fupd (fun _ => none) "c2" (some (.dict [])),
    courses := fupd (fun _ => none) "c2"
      (some { course_id := "c2", title := "T", description := "D", total_modules := 0,
              modules := [], source_pages := [] }),
    quizzes := fupd (fun _ => none) ("c2", none) (some c2quiz),
    configs := fupd (fun _ => false) "c2" true }

/-- C2 fails on the code: after the config-delete flow for course `c2`,
the final quiz record for `c2` is still stored — the deletion path never
removes quiz files, so not all persisted artifacts are gone. -/
theorem claim_C2_counterexample :
    (delete_config c2state "c2").quizzes ("c2", none) = some c2quiz := by
  rfl

/-- C2 amended: the deletion flow removes the vector collection, the
processing snapshot and the generated-course record of the course, but
leaves the stored quiz records untouched. -/
theorem claim_C2_delete_course_data (s : SysState) (cid : String)
    (h : s.configs cid = true) :
    (delete_config s cid).vstore (collection_name cid) = none
    ∧ (delete_config s cid).processed cid = none
    ∧ (delete_config s cid).courses cid = none
    ∧ (delete_config s cid).quizzes = s.quizzes := by
  unfold delete_config storage_delete
  rw [h]
  simp only [if_pos]
  refine ⟨?_, ?_, ?_, rfl⟩
  · show (delete_course_collection s.vstore cid) (collection_name cid) = none
    exact fupd_self _ _ _
  · exact fupd_self _ _ _
  · exact fupd_self _ _ _

/-- Witness for the amended C2 at a concrete state. -/
theorem claim_C2_delete_course_data_witness :
    c2state.configs "c2" = true
    ∧ ((delete_config c2state "c2").vstore (collection_name "c2") = none
       ∧ (delete_config c2state "c2").processed "c2" = none
       ∧ (delete_config c2state "c2").courses "c2" = none
       ∧ (delete_config c2state "c2").quizzes = c2state.quizzes) :=
  ⟨by decide, claim_C2_delete_course_data c2state "c2" (by decide)⟩

/-! ## Quiz grading (`GeminiService.submit_quiz_answers`, gemini_service.py)

Python floats are modelled as exact rationals; `round(x, 1)` is rounding
half-to-even at one decimal, which agrees with CPython on the values the
grader produces. -/

/-- Python list indexing `l[i]`: negative indices wrap once, out-of-range
raises `IndexError`. -/
def pyListIndex {α : Type} (l : List α) (i : Int) : Except String α :=
  let j := if i < 0 then i + l.length else i
  match l.get? j.toNat with
  | some a => if 0 ≤ j then .ok a else .error "IndexError: list index out of range"
  | none => .error "IndexError: list index out of range"

/-- Round-half-to-even to an integer, as CPython rounds. -/
def roundHalfEven (q : ℚ) : ℤ :=
  let f := ⌊q⌋
  let r := q - f
  if r < 1/2 then f
  else if 1/2 < r then f + 1
  else if Even f then f else f + 1

/-- `round(x, 1)`. -/
def pyRound1 (q : ℚ) : ℚ := (roundHalfEven (q * 10) : ℚ) / 10

structure QuizQuestionResult where
  question_number : Nat
  question : String
  user_answer : Int
  correct_answer : Int
  is_correct : Bool
  explanation : String
  selected_option : String
  correct_option : String
deriving DecidableEq, Repr

structure GradeResult where
  course_id : String
  module_number : Option Int
  quiz_title : String
  total_questions : Nat
  correct_answers : Nat
  score_percentage : ℚ
  passed : Bool
  results : List QuizQuestionResult
deriving DecidableEq, Repr

/-- The grading loop over `zip(questions, user_answers)`: counts matching
answers and builds the per-question feedback records.
`question["options"][question["correct_answer"]]` can raise `IndexError`;
`selected_option` is guarded by an explicit bounds check. -/
def grade_loop : List (QuizQuestion × Int) → Nat → Except String (Nat × List QuizQuestionResult)
  | [], _ => .ok (0, [])
  | (question, user_answer) :: rest, i =>
    match pyListIndex question.options question.correct_answer with
    | .error e => .error e
    | .ok correct_option =>
      match grade_loop rest (i + 1) with
      | .error e => .error e
      | .ok r =>
        .ok ((if user_answer == question.correct_answer then 1 else 0) + r.1,
          { question_number := i + 1, question := question.question,
            user_answer := user_answer, correct_answer := question.correct_answer,
            is_correct := user_answer == question.correct_answer,
            explanation := question.explanation,
            selected_option :=
              if 0 ≤ user_answer && user_answer < (question.options.length : Int) then
                question.options.getD user_answer.toNat ""
              else "Invalid",
            correct_option := correct_option } :: r.2)

/-- `GeminiService.submit_quiz_answers`: look up the stored quiz, reject a
length mismatch, grade each answer, and report the (1-decimal-rounded)
percentage with `passed = score >= 70` on the unrounded score.  Dividing by
`len(questions)` raises on an empty quiz. -/
def submit_quiz_answers (s : SysState) (course_id : String) (user_answers : List Int)
    (module_number : Option Int) : Except String GradeResult :=
  match s.quizzes (course_id, module_number) with
  | none => .error "Quiz not found. Generate it first."
  | some quiz_data =>
    if user_answers.length ≠ quiz_data.questions.length then
      .error ("Expected " ++ toString quiz_data.questions.length ++ " answers, got "
        ++ toString user_answers.length)
    else
      match grade_loop (quiz_data.questions.zip user_answers) 0 with
      | .error e => .error e
      | .ok graded =>
        if quiz_data.questions.length = 0 then
          .error "ZeroDivisionError: division by zero"
        else
          .ok { course_id := course_id, module_number := module_number,
                quiz_title := quiz_data.quiz_title,
                total_questions := quiz_data.questions.length,
                correct_answers := graded.1,
                score_percentage :=
                  pyRound1 (((graded.1 : ℚ) / (quiz_data.questions.length : ℚ)) * 100),
                passed := decide ((70 : ℚ)
                  ≤ ((graded.1 : ℚ) / (quiz_data.questions.length : ℚ)) * 100),
                results := graded.2 }

/-- The number of answers matching the correct index of their question. -/
def count_correct (questions : List QuizQuestion) (answers : List Int) : Nat :=
  (questions.zip answers).countP (fun qa => qa.2 == qa.1.correct_answer)

/-- The feedback records the grading loop builds (closed form, for stating
the grading theorem). -/
def graded_records : List (QuizQuestion × Int) → Nat → List QuizQuestionResult
  | [], _ => []
  | (question, user_answer) :: rest, i =>
    { question_number := i + 1, question := question.question,
      user_answer := user_answer, correct_answer := question.correct_answer,
      is_correct := user_answer == question.correct_answer,
      explanation := question.explanation,
      selected_option :=
        if 0 ≤ user_answer && user_answer < (question.options.length : Int) then
          question.options.getD user_answer.toNat ""
        else "Invalid",
      correct_option := question.options.getD question.correct_answer.toNat "" }
      :: graded_records rest (i + 1)

theorem pyListIndex_ok {α : Type} (l : List α) (i : Int) (d : α)
    (h0 : 0 ≤ i) (h1 : i < (l.length : Int)) :
    pyListIndex l i = .ok (l.getD i.toNat d) := by
  have hlt : i.toNat < l.length := by omega
  unfold pyListIndex
  simp only [if_neg (show ¬ i < 0 by omega)]
  rw [List.get?_eq_get hlt]
  show (if 0 ≤ i then Except.ok (l.get ⟨i.toNat, hlt⟩)
    else Except.error "IndexError: list index out of range") = _
  rw [if_pos h0, List.getD_eq_get l d hlt]

theorem grade_loop_eq :
    ∀ (pairs : List (QuizQuestion × Int)) (i : Nat),
      (∀ qa ∈ pairs, 0 ≤ qa.1.correct_answer
        ∧ qa.1.correct_answer < (qa.1.options.length : Int)) →
      grade_loop pairs i
        = .ok (pairs.countP (fun qa => qa.2 == qa.1.correct_answer), graded_records pairs i) := by
  intro pairs
  induction pairs with
  | nil => intro i _; rfl
  | cons qa rest ih =>
    intro i hv
    obtain ⟨q, a⟩ := qa
    have hq := hv (q, a) (List.mem_cons_self _ _)
    have hco := pyListIndex_ok q.options q.correct_answer "" hq.1 hq.2
    have hrest := ih (i + 1) (fun x hx => hv x (List.mem_cons_of_mem _ hx))
    show grade_loop ((q, a) :: rest) i = _
    unfold grade_loop
    rw [hco, hrest]
    show Except.ok _ = Except.ok _
    rw [List.countP_cons]
    rw [Nat.add_comm]
    rfl

/-- C8 amended: grading returns `correct_answers` equal to the number of
matching answers, `score_percentage` equal to `100 * correct / total`
rounded to one decimal, and `passed` exactly when the unrounded score is at
least 70.  (The claim asserted the unrounded value is returned; the code
rounds it, see the counterexample.) -/
theorem claim_C8_grading (s : SysState) (course_id : String) (module_number : Option Int)
    (quiz_data : QuizData) (answers : List Int)
    (hq : s.quizzes (course_id, module_number) = some quiz_data)
    (hlen : answers.length = quiz_data.questions.length)
    (hne : quiz_data.questions ≠ [])
    (hvalid : ∀ q ∈ quiz_data.questions,
      0 ≤ q.correct_answer ∧ q.correct_answer < (q.options.length : Int)) :
    ∃ r, submit_quiz_answers s course_id answers module_number = .ok r
      ∧ r.correct_answers = count_correct quiz_data.questions answers
      ∧ r.score_percentage = pyRound1 (100 * (count_correct quiz_data.questions answers : ℚ)
          / (quiz_data.questions.length : ℚ))
      ∧ (r.passed = true ↔ (70 : ℚ) ≤ 100 * (count_correct quiz_data.questions answers : ℚ)
          / (quiz_data.questions.length : ℚ)) := by
  have hvz : ∀ qa ∈ quiz_data.questions.zip answers,
      0 ≤ qa.1.correct_answer ∧ qa.1.correct_answer < (qa.1.options.length : Int) := by
    intro qa hqa
    obtain ⟨q, a⟩ := qa
    exact hvalid q (List.mem_zip hqa).1
  have harith : ((count_correct quiz_data.questions answers : ℚ)
        / (quiz_data.questions.length : ℚ)) * 100
      = 100 * (count_correct quiz_data.questions answers : ℚ)
        / (quiz_data.questions.length : ℚ) := by
    ring
  rw [count_correct] at harith
  simp only [submit_quiz_answers, hq, grade_loop_eq _ 0 hvz]
  rw [if_neg (show ¬ answers.length ≠ quiz_data.questions.length by simp [hlen])]
  rw [if_neg (show ¬ quiz_data.questions.length = 0 by
    intro h0; exact hne (List.length_eq_zero.mp h0))]
  refine ⟨_, rfl, rfl, ?_, ?_⟩
  · show pyRound1 _ = pyRound1 _
    rw [harith]
    rfl
  · show decide _ = true ↔ _
    rw [decide_eq_true_iff]
    rw [harith]
    exact Iff.rfl

/-- Fixture quiz question: four options, given correct index. -/
def c8q (ca : Int) : QuizQuestion :=
  { question := "What is covered?", options := ["a", "b", "c", "d"],
    correct_answer := ca, explanation := "Because.", difficulty := "medium" }

/-- The two-question quiz of the claim (correct answers 0 and 2). -/
def c8quiz2 : QuizData :=
  { course_id := "c8", quiz_title := "Example Quiz", module_number := none,
    difficulty := "medium", total_questions := 2, questions := [c8q 0, c8q 2] }

def c8state : SysState :=
  { emptySysState with quizzes := fupd (fun _ => none) ("c8", none) (some c8quiz2) }

/-- A three-question quiz used to refute the exact-percentage formula. -/
def c8quiz3 : QuizData :=
  { course_id := "c8b", quiz_title := "Thirds", module_number := none,
    difficulty := "medium", total_questions := 3, questions := [c8q 0, c8q 0, c8q 0] }

def c8state3 : SysState :=
  { emptySysState with quizzes := fupd (fun _ => none) ("c8b", none) (some c8quiz3) }

/-- C8 fails as stated in its general part: with 3 questions and 1 correct
answer the returned `score_percentage` is the rounded `33.3`, not
`100 * 1 / 3`. -/
theorem claim_C8_counterexample :
    (submit_quiz_answers c8state3 "c8b" [0, 1, 1] none).map
        (fun r => (r.correct_answers, r.score_percentage))
      = Except.ok (1, 333/10)
    ∧ (333 : ℚ) / 10 ≠ 100 * 1 / 3 := by
  constructor
  · have hcnt : (c8quiz3.questions.zip [0, 1, 1]).countP
        (fun qa => qa.2 == qa.1.correct_answer) = 1 := by decide
    have hgl := grade_loop_eq (c8quiz3.questions.zip [0, 1, 1]) 0 (by decide)
    rw [hcnt] at hgl
    simp only [submit_quiz_answers,
      show c8state3.quizzes ("c8b", none) = some c8quiz3 from rfl]
    rw [if_neg (show ¬ ([0, 1, 1] : List Int).length ≠ c8quiz3.questions.length from by decide)]
    simp only [hgl]
    rw [if_neg (show ¬ c8quiz3.questions.length = 0 from by decide)]
    simp only [Except.map]
    have hsc : pyRound1 (((1 : ℕ) : ℚ) / (c8quiz3.questions.length : ℚ) * 100)
        = 333/10 := by
      norm_num [pyRound1, roundHalfEven, c8quiz3, c8q]
    rw [hsc]
  · norm_num

/-- Witness for the amended C8 at the claim's concrete example:
questions with correct answers `[0, 2]`, submitted answers `[0, 1]` give
one correct answer, a score of 50 and a failed quiz. -/
theorem claim_C8_grading_witness :
    c8state.quizzes ("c8", none) = some c8quiz2
    ∧ ([0, 1] : List Int).length = c8quiz2.questions.length
    ∧ c8quiz2.questions ≠ []
    ∧ (∀ q ∈ c8quiz2.questions, 0 ≤ q.correct_answer ∧ q.correct_answer < (q.options.length : Int))
    ∧ (∃ r, submit_quiz_answers c8state "c8" [0, 1] none = .ok r
        ∧ r.correct_answers = 1 ∧ r.score_percentage = 50 ∧ r.passed = false) := by
  refine ⟨by decide, by decide, by decide, by decide, ?_⟩
  obtain ⟨r, hr, h1, h2, h3⟩ :=
    claim_C8_grading c8state "c8" none c8quiz2 [0, 1] (by decide) (by decide)
      (by decide) (by decide)
  refine ⟨r, hr, ?_, ?_, ?_⟩
  · rw [h1]; decide
  · rw [h2]
    rw [show count_correct c8quiz2.questions [0, 1] = 1 from by decide]
    norm_num [pyRound1, roundHalfEven, c8quiz2, c8q]
  · cases hb : r.passed with
    | false => rfl
    | true =>
      refine absurd (h3.mp hb) ?_
      rw [show count_correct c8quiz2.questions [0, 1] = 1 from by decide]
      norm_num [c8quiz2, c8q]

/-! ## Course and quiz synthesis (`GeminiService`, gemini_service.py)

The Gemini text endpoint (with its retry/backoff loop, which sleeps in
wall-clock time) and the JSON extraction of its replies (`re.search` +
`json.loads`) are modelled as opaque parameters: `call_gemini_with_retry`
returns the raw reply or `none` after all retries fail, and each
`extract_*` returns the typed structure the downstream code consumes, or
`none` when extraction yields nothing usable.  (Replies that are valid
JSON but deviate from the expected shape flow downstream unvalidated in
the source; they are outside this typed boundary.)  The literal prompt
wording is likewise opaque (`*_prompt` builders of the dynamic parts);
`time.sleep` pacing and the `_save_course`/`_save_quiz` file writes are
elided as they do not affect the returned values. -/

structure GenEnv where
  call_gemini_with_retry : String → Option String
  extract_modules : String → Option (List ModuleStub)
  extract_module_body : String → Option ModuleBody
  extract_questions : String → Option (List QuizQuestion)
  search_similar : String → Nat → List SearchResult
  module_plan_prompt : String → String → String → Int → String
  module_content_prompt : String → String → String → String
  quiz_prompt : String → String → String → String → Int → String

/-- `response_text = retry(prompt); if response_text: parse` — an empty
reply is falsy and skips extraction. -/
def gen_parsed {α : Type} (retry : String → Option String)
    (extract : String → Option α) (prompt : String) : Option α :=
  match retry prompt with
  | none => none
  | some txt => if txt = "" then none else extract txt

/-- `_calculate_optimal_module_count` (decimal literals modelled as exact
rationals; Python `int()` truncates, which is the floor on these
non-negative values). -/
def calculate_optimal_module_count (total_content_length num_pages : Nat) : Nat :=
  let content_based := max 2 (min 12 (total_content_length / 750))
  let page_based := max 2 (min num_pages (num_pages / 2 + 1))
  let optimal := (⌊(content_based : ℚ) * (7/10) + (page_based : ℚ) * (3/10)⌋).toNat
  max 2 (min 12 optimal)

/-- `_calculate_optimal_question_count`. -/
def calculate_optimal_question_count (num_modules total_content_length : Nat) : Nat :=
  let module_based := (⌊(num_modules : ℚ) * (7/4)⌋).toNat
  let content_based := max 3 (total_content_length / 400)
  let optimal := (⌊(module_based : ℚ) * (6/10) + (content_based : ℚ) * (4/10)⌋).toNat
  max 3 (min 20 optimal)

/-- Python `l[:n]` for an `int` bound: negative counts from the end. -/
def pySliceTo {α : Type} (l : List α) (n : Int) : List α :=
  if 0 ≤ n then l.take n.toNat else l.take (l.length - (-n).toNat)

/-- Python `range(n)` over an `int`: empty for non-positive `n`. -/
def pyRange (n : Int) : List Int :=
  if n ≤ 0 then [] else (List.range n.toNat).map Int.ofNat

/-- Python `a // b` on ints: floor division, `ZeroDivisionError` on 0. -/
def pyFloorDiv (a b : Int) : Except String Int :=
  if b = 0 then .error "ZeroDivisionError: integer division or modulo by zero"
  else .ok (Int.fdiv a b)

/-- Python `l[a:b]` for `0 ≤ a`. -/
def pySliceRange {α : Type} (l : List α) (a b : Int) : List α :=
  (l.drop a.toNat).take (b - a).toNat

/-- Python `s.split(sep)` (`sep` non-empty): non-overlapping left-to-right,
empties kept. -/
def pySplitGo (sep : List Char) : List Char → List Char → List (List Char)
  | [], acc => [acc.reverse]
  | c :: rest, acc =>
    if h : ¬ sep.isEmpty ∧ (c :: rest).take sep.length = sep then
      acc.reverse :: pySplitGo sep ((c :: rest).drop sep.length) []
    else pySplitGo sep rest (c :: acc)
termination_by l => l.length
decreasing_by
  · have hlen : sep.length ≤ rest.length + 1 := by
      have h2 := congrArg List.length h.2
      simp [List.length_take] at h2
      omega
    have hpos : 0 < sep.length := by
      cases sep with
      | nil => simp at h
      | cons a u => simp
    simp only [List.length_drop, List.length_cons]
    omega
  · simp

def pySplit (sep l : List Char) : List (List Char) := pySplitGo sep l []

/-- `"\n\n".join(...)`. -/
def joinBlocks (parts : List (List Char)) : List Char :=
  (List.intercalate "\n\n".data parts)

/-- One fallback quiz question built from a source snippet. -/
def fallback_question (snippet : List Char) (difficulty : String) : QuizQuestion :=
  { question := "According to the course material: " ++ String.mk (snippet.take 100) ++ "?",
    options := ["True - this is covered in the material", "False - this is not mentioned",
                "Partially true", "Not applicable"],
    correct_answer := 0,
    explanation := "This information is directly from the course content.",
    difficulty := difficulty }

/-- The generic placeholder question emitted when even the snippet
fallback yields nothing. -/
def placeholder_question (course_title difficulty : String) : QuizQuestion :=
  { question := "What does this course cover about " ++ course_title ++ "?",
    options := ["Key concepts and practical knowledge", "Unrelated information",
                "Random topics", "None of the above"],
    correct_answer := 0,
    explanation := "This course provides essential onboarding knowledge.",
    difficulty := difficulty }

/-- `GeminiService.generate_quiz`: select the quiz scope, retrieve context,
ask the model for questions, and on failure fall back to snippet-derived
questions, or to exactly one placeholder question. -/
def generate_quiz (env : GenEnv) (stored_course : Option GenCourseData) (course_id : String)
    (module_number : Option Int) (num_questions : Option Int) (difficulty : String) :
    Except String QuizData :=
  match stored_course with
  | none => .error ("Course " ++ course_id ++ " has not been generated yet.")
  | some course_data =>
    let sel : Except String (String × String) :=
      match module_number with
      | some mn =>
        match course_data.modules.filter (fun m => m.module_number == mn) with
        | [] => .error ("Module not found in course.")
        | m :: _ => .ok (m.title, course_data.title ++ " - " ++ m.title ++ " Quiz")
      | none => .ok (course_data.title, course_data.title ++ " - Final Assessment")
    match sel with
    | .error e => .error e
    | .ok sel2 =>
      let search_results := env.search_similar sel2.1 20
      let source_content := joinBlocks ((search_results.take 10).map (·.text))
      let total_content_length := (search_results.map (fun r => r.text.length)).sum
      let num_q : Int :=
        match num_questions with
        | some n => n
        | none => calculate_optimal_question_count course_data.modules.length total_content_length
      let prompt := env.quiz_prompt course_data.title sel2.2 difficulty
        (String.mk (source_content.take 3000)) num_q
      let questions :=
        match gen_parsed env.call_gemini_with_retry env.extract_questions prompt with
        | some (q :: qs) => q :: qs
        | _ =>
          let content_snippets := pySliceTo (pySplit ". ".data (source_content.take 1000)) num_q
          let built := content_snippets.filterMap (fun snippet =>
            if snippet.length < 20 then none
            else some (fallback_question snippet difficulty))
          if built.isEmpty then [placeholder_question course_data.title difficulty]
          else built
      .ok { course_id := course_id, quiz_title := sel2.2, module_number := module_number,
            difficulty := difficulty, total_questions := questions.length,
            questions := questions }

/-- `GeminiService._generate_module_content`: retrieve the top chunks for
the module query, ask the model for the body, and on failure surface the
retrieved chunks directly (bounded to 3000 characters, stopping at the
first chunk that would overflow). -/
def take_chunks_within : List SearchResult → Nat → List (List Char)
  | [], _ => []
  | r :: rest, total =>
    if total + r.text.length ≤ 3000 then r.text :: take_chunks_within rest (total + r.text.length)
    else []

def generate_module_content (env : GenEnv) (stub : ModuleStub) : GenModule :=
  let search_results := env.search_similar (stub.title ++ " " ++ stub.description) 10
  let relevant_content := joinBlocks (search_results.map (·.text))
  let prompt := env.module_content_prompt stub.title stub.description
    (String.mk (relevant_content.take 5000))
  let body : ModuleBody :=
    match gen_parsed env.call_gemini_with_retry env.extract_module_body prompt with
    | some b => b
    | none =>
      let formatted_content := joinBlocks (take_chunks_within search_results 0)
      { overview := stub.description,
        content := if formatted_content.isEmpty then
            "Please refer to the source documentation for detailed information."
          else String.mk formatted_content,
        key_points := if stub.topics.isEmpty then
            ["Review the documentation for detailed information"]
          else stub.topics.take 5,
        takeaways := ["Understanding " ++ stub.title, "Review the detailed content above",
                      "Apply these concepts in your work"] }
  { module_number := stub.module_number, title := stub.title,
    description := stub.description, overview := body.overview, content := body.content,
    key_points := body.key_points, takeaways := body.takeaways }

/-- Group retrieved chunks by `page_id` in first-seen order (Python dict
insertion order): `page_id ↦ (page_title, chunks)`. -/
def group_pages (results : List SearchResult) : List (String × String × List (List Char)) :=
  results.foldl
    (fun acc r =>
      if acc.any (fun e => e.1 == r.page_id) then
        acc.map (fun e => if e.1 = r.page_id then (e.1, e.2.1, e.2.2 ++ [r.text]) else e)
      else acc ++ [(r.page_id, r.page_title, [r.text])])
    []

/-- The stray duplicate append of gemini_service.py line 189: inside the
auto-calculation branch, the loop variables still hold the last search
result, and its text is appended to that page once more. -/
def append_last_chunk (g : List (String × String × List (List Char)))
    (results : List SearchResult) : List (String × String × List (List Char)) :=
  match results.getLast? with
  | none => g
  | some r => g.map (fun e => if e.1 = r.page_id then (e.1, e.2.1, e.2.2 ++ [r.text]) else e)

/-- One module stub of the deterministic fallback plan: the pages slice
`pages_list[i*ppm : i*ppm+ppm]` (the last module takes the rest), named
after its first page; an empty slice yields no module. -/
def fallback_stub (pages_list : List (String × String × List (List Char)))
    (num_modules pages_per_module i : Int) : Option ModuleStub :=
  let start_idx := i * pages_per_module
  let end_idx := if i < num_modules - 1 then start_idx + pages_per_module
    else (pages_list.length : Int)
  match pySliceRange pages_list start_idx end_idx with
  | [] => none
  | p :: _ => some
      { module_number := i + 1, title := p.2.1,
        description := "Learn about " ++ p.2.1.toLower,
        topics := (pySliceRange pages_list start_idx end_idx).map (fun q => q.2.1) }

/-- The deterministic module plan used when generation fails: pages are
partitioned across the modules in input order, each module named after its
first page. -/
def fallback_module_structure (pages_list : List (String × String × List (List Char)))
    (num_modules : Int) : Except String (List ModuleStub) :=
  match pyFloorDiv pages_list.length num_modules with
  | .error e => .error e
  | .ok d =>
    .ok ((pyRange num_modules).filterMap (fallback_stub pages_list num_modules (max 1 d)))

/-- `GeminiService.generate_course_content`: retrieve up to 50 chunks for
the course query, group them by page, plan the modules (model call with
deterministic fallback), then generate each module body. -/
def generate_course_content (env : GenEnv) (course_id course_title course_description : String)
    (num_modules : Option Int) : Except String GenCourseData :=
  let query := if course_description = "" then course_title else course_description
  let search_results := env.search_similar query 50
  if search_results.isEmpty then
    .error ("No content found for course " ++ course_id ++ ". Has it been processed?")
  else
    let pages_content := group_pages search_results
    let total_content_length := (search_results.map (fun r => r.text.length)).sum
    let nm_pages : Int × List (String × String × List (List Char)) :=
      match num_modules with
      | some n => (n, pages_content)
      | none =>
        ((calculate_optimal_module_count total_content_length pages_content.length : Int),
         append_last_chunk pages_content search_results)
    let plan_prompt := env.module_plan_prompt course_title course_description
      (String.mk (joinBlocks ((nm_pages.2).map (fun e => e.2.1.data)))) nm_pages.1
    let plan : Except String (List ModuleStub) :=
      match gen_parsed env.call_gemini_with_retry env.extract_modules plan_prompt with
      | some (s :: rest) => .ok (s :: rest)
      | _ => fallback_module_structure nm_pages.2 nm_pages.1
    match plan with
    | .error e => .error e
    | .ok module_structure =>
      let modules := module_structure.map (generate_module_content env)
      .ok { course_id := course_id, title := course_title,
            description := course_description, total_modules := modules.length,
            modules := modules,
            source_pages := (nm_pages.2).map (fun e => { id := e.1, title := e.2.1 }) }

/-- A question is well-formed when it has question text, exactly four
options, a valid correct-answer index, and an explanation. -/
def wellFormedQuestion (q : QuizQuestion) : Prop :=
  q.options.length = 4 ∧ q.question ≠ "" ∧ q.explanation ≠ ""
  ∧ 0 ≤ q.correct_answer ∧ q.correct_answer < 4

theorem string_append_ne_empty (a b : String) (h : a ≠ "") : a ++ b ≠ "" := by
  intro hc
  have hl := congrArg String.length hc
  rw [String.length_append] at hl
  rw [show ("" : String).length = 0 from rfl] at hl
  have h0 : a.length = 0 := by omega
  refine h (String.ext ?_)
  rw [show ("" : String).data = [] from rfl]
  have h1 : a.data.length = 0 := h0
  exact List.length_eq_zero.mp h1

theorem string_of_length_pos (s : String) (h : 0 < s.length) : s ≠ "" := by
  intro hc
  rw [hc] at h
  simp [String.length] at h

set_option maxRecDepth 4096 in
theorem fallback_question_wf (snippet : List Char) (difficulty : String) :
    wellFormedQuestion (fallback_question snippet difficulty) := by
  refine ⟨rfl, ?_, ?_, ?_, ?_⟩
  · exact string_append_ne_empty _ _
      (string_append_ne_empty _ _ (string_of_length_pos _ (by decide)))
  · exact string_of_length_pos
      "This information is directly from the course content." (by decide)
  · show (0 : Int) ≤ 0
    decide
  · show (0 : Int) < 4
    decide

set_option maxRecDepth 4096 in
theorem placeholder_question_wf (course_title difficulty : String) :
    wellFormedQuestion (placeholder_question course_title difficulty) := by
  refine ⟨rfl, ?_, ?_, ?_, ?_⟩
  · exact string_append_ne_empty _ _
      (string_append_ne_empty _ _
        (string_of_length_pos "What does this course cover about " (by decide)))
  · exact string_of_length_pos
      "This course provides essential onboarding knowledge." (by decide)
  · show (0 : Int) ≤ 0
    decide
  · show (0 : Int) < 4
    decide

theorem group_step_ne_nil (acc : List (String × String × List (List Char))) (r : SearchResult)
    (h : acc ≠ []) :
    (if acc.any (fun e => e.1 == r.page_id) then
      acc.map (fun e => if e.1 = r.page_id then (e.1, e.2.1, e.2.2 ++ [r.text]) else e)
    else acc ++ [(r.page_id, r.page_title, [r.text])]) ≠ [] := by
  split
  · simpa using h
  · simp

theorem group_fold_ne_nil :
    ∀ (l : List SearchResult) (acc : List (String × String × List (List Char))), acc ≠ [] →
      l.foldl (fun acc r =>
        if acc.any (fun e => e.1 == r.page_id) then
          acc.map (fun e => if e.1 = r.page_id then (e.1, e.2.1, e.2.2 ++ [r.text]) else e)
        else acc ++ [(r.page_id, r.page_title, [r.text])]) acc ≠ [] := by
  intro l
  induction l with
  | nil => intro acc h; simpa using h
  | cons r rest ih =>
    intro acc h
    simp only [List.foldl_cons]
    exact ih _ (group_step_ne_nil acc r h)

theorem group_pages_ne_nil (results : List SearchResult) (h : results ≠ []) :
    group_pages results ≠ [] := by
  cases results with
  | nil => exact absurd rfl h
  | cons r rest =>
    unfold group_pages
    simp only [List.foldl_cons]
    apply group_fold_ne_nil
    simp

theorem append_last_chunk_ne_nil (g : List (String × String × List (List Char)))
    (results : List SearchResult) (h : g ≠ []) : append_last_chunk g results ≠ [] := by
  unfold append_last_chunk
  cases results.getLast? with
  | none => exact h
  | some r => simpa using h

theorem pySliceRange_zero_ne_nil {α : Type} (l : List α) (b : Int) (hl : l ≠ [])
    (hb : 1 ≤ b) : pySliceRange l 0 b ≠ [] := by
  unfold pySliceRange
  intro hc
  have hlen := congrArg List.length hc
  simp only [List.length_take, List.length_drop, List.length_nil] at hlen
  have hl0 : 0 < l.length := List.length_pos.mpr hl
  omega

theorem fallback_stub_zero_isSome
    (pages_list : List (String × String × List (List Char))) (n ppm : Int)
    (hp : pages_list ≠ []) (hppm : 1 ≤ ppm) :
    ∃ s, fallback_stub pages_list n ppm 0 = some s := by
  unfold fallback_stub
  simp only [zero_mul, zero_add]
  have hlen1 : 1 ≤ (pages_list.length : Int) := by
    have := List.length_pos.mpr hp
    omega
  have hB : 1 ≤ (if (0 : Int) < n - 1 then ppm else (pages_list.length : Int)) := by
    split
    · exact hppm
    · exact hlen1
  have hmp := pySliceRange_zero_ne_nil pages_list _ hp hB
  cases hm : pySliceRange pages_list 0
      (if (0 : Int) < n - 1 then ppm else (pages_list.length : Int)) with
  | nil => exact absurd hm hmp
  | cons p ps => exact ⟨_, rfl⟩

/-- The deterministic fallback plan is non-empty whenever there is at
least one page and the module count is positive. -/
theorem fallback_module_structure_ne_nil
    (pages_list : List (String × String × List (List Char))) (n : Int)
    (hp : pages_list ≠ []) (hn : 1 ≤ n) :
    ∃ stubs, fallback_module_structure pages_list n = .ok stubs ∧ stubs ≠ [] := by
  unfold fallback_module_structure pyFloorDiv
  rw [if_neg (by omega : ¬ n = 0)]
  refine ⟨_, rfl, ?_⟩
  intro hnil
  rw [List.filterMap_eq_nil] at hnil
  have h0 : (0 : Int) ∈ pyRange n := by
    unfold pyRange
    rw [if_neg (by omega : ¬ n ≤ 0)]
    exact List.mem_map.mpr ⟨0, List.mem_range.mpr (by omega), rfl⟩
  obtain ⟨s, hs⟩ := fallback_stub_zero_isSome pages_list n
    (max 1 (Int.fdiv pages_list.length n)) hp (le_max_left _ _)
  rw [hnil 0 h0] at hs
  exact Option.noConfusion hs

/-- When every generation call fails, each module body falls back to the
retrieved chunks (or a fixed pointer message), which is never empty. -/
theorem generate_module_content_ne_empty (env : GenEnv) (stub : ModuleStub)
    (hgen : ∀ p, env.call_gemini_with_retry p = none) :
    (generate_module_content env stub).content ≠ "" := by
  simp only [generate_module_content, gen_parsed, hgen]
  split
  · exact string_of_length_pos
      "Please refer to the source documentation for detailed information." (by decide)
  · rename_i hne
    intro hc
    have hdata := congrArg String.data hc
    rw [show ("" : String).data = [] from rfl] at hdata
    rw [show (String.mk (joinBlocks (take_chunks_within
      (env.search_similar (stub.title ++ " " ++ stub.description) 10) 0))).data
      = joinBlocks (take_chunks_within
        (env.search_similar (stub.title ++ " " ++ stub.description) 10) 0) from rfl] at hdata
    rw [hdata] at hne
    simp at hne

/-- Every snippet-derived fallback question is well-formed. -/
theorem built_questions_wf (snippets : List (List Char)) (difficulty : String) :
    ∀ q ∈ snippets.filterMap (fun snippet =>
      if snippet.length < 20 then none
      else some (fallback_question snippet difficulty)), wellFormedQuestion q := by
  intro q hq
  rcases List.mem_filterMap.mp hq with ⟨s, _, heq⟩
  split at heq
  · exact Option.noConfusion heq
  · rw [Option.some_inj] at heq
    exact heq ▸ fallback_question_wf s difficulty

theorem exists_wf_mem (bl : List QuizQuestion)
    (hwf : ∀ q ∈ bl, wellFormedQuestion q) (hne : ¬ bl.isEmpty = true) :
    ∃ q ∈ bl, wellFormedQuestion q := by
  cases bl with
  | nil => exact absurd rfl hne
  | cons q qs => exact ⟨q, List.mem_cons_self _ _, hwf q (List.mem_cons_self _ _)⟩

/-- Under total generation failure, the final quiz still carries at least
one well-formed question. -/
theorem generate_quiz_fallback (env : GenEnv) (course_data : GenCourseData)
    (course_id : String) (num_questions : Option Int) (difficulty : String)
    (hgen : ∀ p, env.call_gemini_with_retry p = none) :
    ∃ qz, generate_quiz env (some course_data) course_id none num_questions difficulty
        = .ok qz ∧ ∃ q ∈ qz.questions, wellFormedQuestion q := by
  simp only [generate_quiz, gen_parsed, hgen]
  refine ⟨_, rfl, ?_⟩
  dsimp only
  split
  · exact ⟨_, List.mem_singleton_self _, placeholder_question_wf _ _⟩
  · rename_i hbe
    exact exists_wf_mem _ (built_questions_wf _ difficulty) hbe

/-- Under total generation failure, with at least one retrieved chunk and a
positive (or auto-calculated) module count, the generated course has at
least one module with non-empty content. -/
theorem generate_course_content_fallback (env : GenEnv)
    (course_id course_title course_description : String) (num_modules : Option Int)
    (hgen : ∀ p, env.call_gemini_with_retry p = none)
    (hsearch : env.search_similar
      (if course_description = "" then course_title else course_description) 50 ≠ [])
    (hnm : ∀ n, num_modules = some n → 1 ≤ n) :
    ∃ gcd, generate_course_content env course_id course_title course_description num_modules
        = .ok gcd ∧ ∃ m ∈ gcd.modules, m.content ≠ "" := by
  simp only [generate_course_content, gen_parsed, hgen]
  rw [if_neg (by
    intro hc
    exact hsearch (List.isEmpty_iff.mp hc))]
  have hgrp := group_pages_ne_nil _ hsearch
  cases num_modules with
  | some n =>
    obtain ⟨stubs, hst, hsne⟩ := fallback_module_structure_ne_nil
      (group_pages (env.search_similar
        (if course_description = "" then course_title else course_description) 50))
      n hgrp (hnm n rfl)
    rw [hst]
    refine ⟨_, rfl, ?_⟩
    cases stubs with
    | nil => exact absurd rfl hsne
    | cons s rest =>
      exact ⟨generate_module_content env s, by simp,
        generate_module_content_ne_empty env s hgen⟩
  | none =>
    set SR := env.search_similar
      (if course_description = "" then course_title else course_description) 50 with hSR
    have hpne := append_last_chunk_ne_nil (group_pages SR) SR hgrp
    have hn1 : 1 ≤ ((calculate_optimal_module_count ((SR.map (fun r => r.text.length)).sum)
        (group_pages SR).length : Nat) : Int) := by
      have h2 : 2 ≤ calculate_optimal_module_count ((SR.map (fun r => r.text.length)).sum)
          (group_pages SR).length := Nat.le_max_left 2 _
      omega
    obtain ⟨stubs, hst, hsne⟩ := fallback_module_structure_ne_nil
      (append_last_chunk (group_pages SR) SR) _ hpne hn1
    rw [hst]
    refine ⟨_, rfl, ?_⟩
    cases stubs with
    | nil => exact absurd rfl hsne
    | cons s rest =>
      exact ⟨generate_module_content env s, by simp,
        generate_module_content_ne_empty env s hgen⟩

/-! Concrete generation fixtures: a Gemini environment whose every call
fails (and whose extractors never parse), over an index holding exactly
one retrieved chunk. -/

def c9hit : SearchResult :=
  { text := ("Alpha teams reconcile the shared ledger nightly and archive the " ++
      "totals for the quarterly audit review cycle.").data,
    page_id := "p1", page_title := "Alpha Guide" }

def c9env : GenEnv :=
  { call_gemini_with_retry := fun _ => none,
    extract_modules := fun _ => none,
    extract_module_body := fun _ => none,
    extract_questions := fun _ => none,
    search_similar := fun _ _ => [c9hit],
    module_plan_prompt := fun _ _ _ _ => "",
    module_content_prompt := fun _ _ _ => "",
    quiz_prompt := fun _ _ _ _ _ => "" }

def c9course : GenCourseData :=
  { course_id := "c9", title := "Alpha Onboarding", description := "desc",
    total_modules := 0, modules := [], source_pages := [] }

/-- C9: when every call to the generation capability fails,
`generate_quiz` (final-quiz scope) still returns a quiz carrying at least
one well-formed question (question text, exactly four options, an
in-range correct-answer index, an explanation); and, provided the course
query retrieves at least one chunk and the requested module count — when
one is given — is positive, `generate_course_content` still returns a
course with at least one module whose content is a non-empty string. -/
theorem claim_C9_generation_fallbacks (env : GenEnv) (course_data : GenCourseData)
    (course_id course_title course_description : String)
    (num_questions num_modules : Option Int) (difficulty : String)
    (hgen : ∀ p, env.call_gemini_with_retry p = none)
    (hsearch : env.search_similar
      (if course_description = "" then course_title else course_description) 50 ≠ [])
    (hnm : ∀ n, num_modules = some n → 1 ≤ n) :
    (∃ qz, generate_quiz env (some course_data) course_id none num_questions difficulty
        = .ok qz ∧ ∃ q ∈ qz.questions, wellFormedQuestion q)
    ∧ ∃ gcd, generate_course_content env course_id course_title course_description num_modules
        = .ok gcd ∧ ∃ m ∈ gcd.modules, m.content ≠ "" :=
  ⟨generate_quiz_fallback env course_data course_id num_questions difficulty hgen,
   generate_course_content_fallback env course_id course_title course_description num_modules
     hgen hsearch hnm⟩

/-- C9 counterexample: with the index non-empty but `num_modules = -1`
requested, generation failure makes the deterministic plan empty
(`range(-1)` is empty), and the call succeeds with zero modules — so the
fallback guarantee does not hold for every forced-failure run without the
positive-module-count proviso. -/
theorem claim_C9_counterexample :
    (generate_course_content c9env "c9" "Alpha Onboarding" "A course about the alpha process"
      (some (-1))).map (fun gcd => gcd.modules) = Except.ok [] := rfl

/-- C9 witness: the fallback guarantee instantiated at the concrete
all-failing environment. -/
theorem claim_C9_generation_fallbacks_witness :
    (∀ p, c9env.call_gemini_with_retry p = none)
    ∧ c9env.search_similar (if "A course about the alpha process" = ""
        then "Alpha Onboarding" else "A course about the alpha process") 50 ≠ []
    ∧ (∀ n, (none : Option Int) = some n → 1 ≤ n)
    ∧ ((∃ qz, generate_quiz c9env (some c9course) "c9" none none "medium"
          = .ok qz ∧ ∃ q ∈ qz.questions, wellFormedQuestion q)
       ∧ ∃ gcd, generate_course_content c9env "c9" "Alpha Onboarding"
          "A course about the alpha process" none = .ok gcd
          ∧ ∃ m ∈ gcd.modules, m.content ≠ "") :=
  ⟨fun p => rfl, List.cons_ne_nil _ _, fun n h => Option.noConfusion h,
   claim_C9_generation_fallbacks c9env c9course "c9" "Alpha Onboarding"
     "A course about the alpha process" none none "medium"
     (fun p => rfl) (List.cons_ne_nil _ _) (fun n h => Option.noConfusion h)⟩

end Eddie
